import Mathlib

/-!
# Isometric scene script (`src/script.js`)

A shallow embedding of the scene script: the model-load callback (material
assignment by mesh name, animation start-up), the Points-of-Interest toggle
handler and the per-frame step `tick`.

The numbers the script computes with (coordinates, viewport sizes, label
offsets) are IEEE 754 doubles, `Number`, with products rounded to nearest, ties
to even.  Distances, which the script only compares, are the rationals that
finite doubles denote.  Objects that the script shares
by reference and mutates (materials) live in an explicit heap.  The operations
of the rendering library that the script only calls (projection, ray casting,
distance, camera controls, animation update) are fields of `Three`, so every
statement below holds for whatever results those calls give.
-/

namespace Isometric

/-! ## Data model -/

/-- A JavaScript number (IEEE 754 binary64).  A finite number is given by the
rational it denotes; the sign of zero is not kept, since it shows neither in a
comparison nor in the text of a number. -/
inductive Number where
  | nan
  | infinity (negative : Bool)
  | finite (value : ℚ)
deriving DecidableEq

/-- Rounding of a rational to the nearest integer, ties to the even one. -/
def roundHalfEven (r : ℚ) : ℤ :=
  if r - ⌊r⌋ < 1 / 2 then ⌊r⌋
  else if 1 / 2 < r - ⌊r⌋ then ⌊r⌋ + 1
  else if ⌊r⌋ % 2 = 0 then ⌊r⌋ else ⌊r⌋ + 1

/-- The exponent of the last place of the doubles around a positive `q`: 53
significant bits, and never below the subnormal spacing `2 ^ (-1074)`. -/
def ulpExponent (q : ℚ) : ℤ := max (Int.log 2 q - 52) (-1074)

/-- The double nearest to a non-negative rational, before overflow is considered. -/
def roundMagnitude (q : ℚ) : ℚ :=
  roundHalfEven (q / 2 ^ ulpExponent q) * 2 ^ ulpExponent q

/-- The double nearest to a rational, before overflow is considered. -/
def roundNearest (q : ℚ) : ℚ :=
  if q < 0 then -roundMagnitude (-q) else roundMagnitude q

/-- The number a real result is rounded to: the nearest double, or an infinity
when that lies beyond the largest double. -/
def Number.ofRat (q : ℚ) : Number :=
  if 2 ^ 1024 ≤ |roundNearest q| then Number.infinity (decide (q < 0))
  else Number.finite (roundNearest q)

/-- The operator `*` of the language on numbers. -/
def Number.mul : Number → Number → Number
  | Number.nan, _ => Number.nan
  | _, Number.nan => Number.nan
  | Number.infinity s, Number.infinity t => Number.infinity (s != t)
  | Number.infinity s, Number.finite q =>
    if q = 0 then Number.nan else Number.infinity (s != decide (q < 0))
  | Number.finite q, Number.infinity s =>
    if q = 0 then Number.nan else Number.infinity (s != decide (q < 0))
  | Number.finite a, Number.finite b => Number.ofRat (a * b)

/-- The unary operator `-` of the language on numbers. -/
def Number.neg : Number → Number
  | Number.nan => Number.nan
  | Number.infinity s => Number.infinity (!s)
  | Number.finite q => Number.finite (-q)

/-- The rational is a finite double: rounding leaves it as it is. -/
def IsDouble (q : ℚ) : Prop := Number.ofRat q = Number.finite q

/-- An integer literal; the integers written in this file are below `2 ^ 53` and
hence doubles. -/
instance (n : Nat) : OfNat Number n := ⟨Number.finite n⟩

/-- A decimal literal denotes the double nearest to it. -/
instance : OfScientific Number :=
  ⟨fun m s e => Number.ofRat (OfScientific.ofScientific m s e)⟩

instance : Neg Number := ⟨Number.neg⟩

/-- A `THREE.Vector3`. -/
structure Vector3 where
  x : Number
  y : Number
  z : Number
deriving DecidableEq

/-- `Vector3.clone()`: a fresh vector with the same coordinates. -/
def Vector3.clone (v : Vector3) : Vector3 := { x := v.x, y := v.y, z := v.z }

/-- A texture, identified by the file it was loaded from. -/
structure Texture where
  url : String
  flipY : Bool
  colorSpace : String
deriving DecidableEq

/-- A `THREE.MeshBasicMaterial`, with the properties the script sets. -/
structure Material where
  map : Option Texture
  color : Nat
  transparent : Bool
  opacity : ℚ
deriving DecidableEq

/-- `new THREE.MeshBasicMaterial(params)`: the library defaults are colour white,
no map, not transparent, opacity 1. -/
def MeshBasicMaterial (map : Option Texture) (color : Option Nat) : Material :=
  { map := map, color := color.getD 0xffffff, transparent := false, opacity := 1 }

/-- A reference to a material object. -/
abbrev MaterialRef := Nat

/-- The material objects alive in the program: `mem r` is the object behind
reference `r`, and the references below `next` are the allocated ones. -/
structure Heap where
  mem : MaterialRef → Material
  next : MaterialRef

/-- Allocate a new material object and return its reference. -/
def Heap.alloc (h : Heap) (m : Material) : Heap × MaterialRef :=
  ({ mem := fun r => if r = h.next then m else h.mem r, next := h.next + 1 }, h.next)

/-- Overwrite the object behind a reference (a property assignment). -/
def Heap.write (h : Heap) (r : MaterialRef) (m : Material) : Heap :=
  { mem := fun q => if q = r then m else h.mem q, next := h.next }

/-- `material.clone()`: a new object with the properties of the one behind `r`. -/
def Heap.cloneMaterial (h : Heap) (r : MaterialRef) : Heap × MaterialRef :=
  h.alloc (h.mem r)

/-- A node of the scene graph (`THREE.Object3D`): its name, whether it is a mesh,
the material it references (if any) and its children. -/
inductive Object3D where
  | mk (name : String) (isMesh : Bool) (material : Option MaterialRef)
      (children : List Object3D)

/-- The fields of a node that the traversal callback reads and writes. -/
structure Child where
  name : String
  isMesh : Bool
  material : Option MaterialRef
deriving DecidableEq

/-- An animation clip of the model. -/
structure AnimationClip where
  name : String
  duration : ℚ
deriving DecidableEq

/-- A `THREE.AnimationMixer`: the object it animates and the actions started on it,
in the order `play()` was called. -/
structure AnimationMixer where
  root : Object3D
  actions : List AnimationClip

/-- The loaded model handed to the load callback.  `animations` may be absent. -/
structure GLTF where
  scene : Object3D
  animations : Option (List AnimationClip)

/-- A DOM label: its class list and the two inline style properties the script sets.
`transform` holds the two lengths of the declaration
`translateX(..px) translateY(..px)` in effect; `none` means the script has not set
one. -/
structure Element where
  classList : List String
  display : String
  transform : Option (ℚ × ℚ)
deriving DecidableEq

/-- `classList.add(token)`. -/
def classListAdd (token : String) (l : List String) : List String :=
  if token ∈ l then l else l ++ [token]

/-- `classList.remove(token)`. -/
def classListRemove (token : String) (l : List String) : List String :=
  l.filter (fun t => t ≠ token)

/-- A point of interest: a 3D position and its label. -/
structure Point where
  position : Vector3
  element : Element
deriving DecidableEq

/-- One entry of the list returned by `raycaster.intersectObjects`. -/
structure Intersection where
  distance : ℚ
deriving DecidableEq

/-- The perspective camera, as far as the script reads it. -/
structure Camera where
  position : Vector3
  aspect : Number
deriving DecidableEq

/-- The viewport size object `sizes`. -/
structure Sizes where
  width : Number
  height : Number
deriving DecidableEq

/-- Whether a call returned or threw. -/
inductive Outcome where
  | completed
  | threw (error : String)
deriving DecidableEq

/-- The operations of the rendering library called by `tick`. -/
structure Three where
  /-- `controls.update()`, which moves the camera. -/
  controlsUpdate : Camera → Camera
  /-- `mixer.update(deltaTime)`, which advances the animated scene. -/
  mixerUpdate : AnimationMixer → ℚ → List Object3D → AnimationMixer × List Object3D
  /-- `v.project(camera)`: the normalised screen coordinates of `v`. -/
  project : Vector3 → Camera → Vector3
  /-- `raycaster.setFromCamera(coords, camera)` followed by
  `raycaster.intersectObjects(objects, true)`. -/
  intersectObjects : Vector3 → Camera → List Object3D → List Intersection
  /-- `a.distanceTo(b)`. -/
  distanceTo : Vector3 → Vector3 → ℚ

/-- The mutable state of the script. -/
structure State where
  sceneReady : Bool
  /-- `debugObject.poi`. -/
  poi : Bool
  mixer : Option AnimationMixer
  /-- `scene.children`. -/
  scene : List Object3D
  camera : Camera
  sizes : Sizes
  points : List Point
  materials : Heap
  /-- Console output, oldest first. -/
  console : List String
  /-- Number of `renderer.render` calls so far. -/
  renderCalls : Nat
  /-- Number of `window.requestAnimationFrame` calls so far. -/
  frameRequests : Nat

/-! ## Textures and shared materials (lines 79-103) -/

/-- Line 79-81. -/
def bakedTexture1 : Texture :=
  { url := "/textures/Klaarr.jpg", flipY := false, colorSpace := "srgb" }

/-- Line 83; a loaded texture has `flipY` true and no colour space by default. -/
def globeTexture : Texture :=
  { url := "/textures/Earth.jpg", flipY := true, colorSpace := "" }

/-- The reference held by `const lampMaterial`. -/
def lampMaterial : MaterialRef := 0

/-- The reference held by `const tungstenMaterial`. -/
def tungstenMaterial : MaterialRef := 1

/-- The reference held by `const easterEggMaterial`. -/
def easterEggMaterial : MaterialRef := 2

/-- The reference held by `const material1` (the baked material). -/
def material1 : MaterialRef := 3

/-- The heap before the first material is created. -/
def emptyHeap : Heap := { mem := fun _ => MeshBasicMaterial none none, next := 0 }

/-- The heap after lines 86-103: the four shared materials, in creation order. -/
def initialMaterials : Heap :=
  let h1 := (emptyHeap.alloc (MeshBasicMaterial none (some 0xb4b4b4))).1
  let h2 := (h1.alloc (MeshBasicMaterial none (some 0x454545))).1
  let h3 := (h2.alloc (MeshBasicMaterial none (some 0xffe39d))).1
  (h3.alloc (MeshBasicMaterial (some bakedTexture1) none)).1

/-- The four shared materials exist in the heap with the properties they were
created with. -/
def SharedMaterials (h : Heap) : Prop :=
  4 ≤ h.next ∧
  h.mem lampMaterial = MeshBasicMaterial none (some 0xb4b4b4) ∧
  h.mem tungstenMaterial = MeshBasicMaterial none (some 0x454545) ∧
  h.mem easterEggMaterial = MeshBasicMaterial none (some 0xffe39d) ∧
  h.mem material1 = MeshBasicMaterial (some bakedTexture1) none

/-! ## The model-load callback (lines 113-152) -/

/-- `String.prototype.includes`. -/
def includes (s sub : String) : Bool :=
  s.data.tails.any (fun t => sub.data.isPrefixOf t)

/-- Lines 116-130: the material chosen by the name of the mesh.  Only the globe
gets a newly created material. -/
def assignByName (h : Heap) (name : String) : Heap × MaterialRef :=
  if name = "Globe" then
    h.alloc (MeshBasicMaterial (some globeTexture) (some 0x888888))
  else if name = "Lamp" then (h, lampMaterial)
  else if name = "Tungsten Piece" then (h, tungstenMaterial)
  else if name = "EasterEgg" then (h, easterEggMaterial)
  else (h, material1)

/-- Lines 132-136: replace the material by a clone and make the clone
half transparent. -/
def makeGlass (h : Heap) (m : MaterialRef) : Heap × MaterialRef :=
  let c := h.cloneMaterial m
  let h1 := c.1.write c.2 { c.1.mem c.2 with transparent := true }
  let h2 := h1.write c.2 { h1.mem c.2 with opacity := 1 / 2 }
  (h2, c.2)

/-- The callback passed to `gltf.scene.traverse` (lines 114-138). -/
def onChild (h : Heap) (child : Child) : Heap × Child :=
  if child.isMesh = true then
    let a := assignByName h child.name
    if includes child.name "Glass" = true then
      let g := makeGlass a.1 a.2
      (g.1, { child with material := some g.2 })
    else
      (a.1, { child with material := some a.2 })
  else
    (h, child)

mutual
/-- `Object3D.traverse(callback)` of the library: the callback runs on the node,
then the children are traversed in order. -/
def Object3D.traverse (callback : Heap → Child → Heap × Child) :
    Heap → Object3D → Heap × Object3D
  | h, Object3D.mk name isMesh material children =>
    let r := callback h { name := name, isMesh := isMesh, material := material }
    let rs := traverseChildren callback r.1 children
    (rs.1, Object3D.mk r.2.name r.2.isMesh r.2.material rs.2)
/-- Traversal of a list of children, left to right. -/
def traverseChildren (callback : Heap → Child → Heap × Child) :
    Heap → List Object3D → Heap × List Object3D
  | h, [] => (h, [])
  | h, c :: cs =>
    let r := Object3D.traverse callback h c
    let rs := traverseChildren callback r.1 cs
    (rs.1, r.2 :: rs.2)
end

mutual
/-- The nodes of a graph in the order `traverse` visits them. -/
def Object3D.nodes : Object3D → List Child
  | Object3D.mk name isMesh material children =>
    { name := name, isMesh := isMesh, material := material } :: nodesOfChildren children
/-- The nodes of a list of graphs, in visiting order. -/
def nodesOfChildren : List Object3D → List Child
  | [] => []
  | c :: cs => c.nodes ++ nodesOfChildren cs
end

/-- The condition `gltf.animations && gltf.animations.length` (line 142). -/
def hasAnimations (animations : Option (List AnimationClip)) : Bool :=
  match animations with
  | none => false
  | some l => l.length != 0

/-- `mixer.clipAction(clip).play()` (lines 146-147). -/
def playClip (mixer : AnimationMixer) (clip : AnimationClip) : AnimationMixer :=
  { mixer with actions := mixer.actions ++ [clip] }

/-- The callback passed to `gltfLoader.load` (lines 113-152). -/
def onLoad (gltf : GLTF) (s : State) : State :=
  let r := gltf.scene.traverse onChild s.materials
  let s1 := { s with materials := r.1, scene := s.scene ++ [r.2] }
  if hasAnimations gltf.animations = true then
    let mixer : AnimationMixer := { root := r.2, actions := [] }
    { s1 with mixer := some ((gltf.animations.getD []).foldl playClip mixer) }
  else
    { s1 with console := s1.console ++ ["No animations found in the GLTF model."] }

/-! ## Points of interest (lines 192-234) -/

/-- The array `points` (lines 192-217), given the three label elements of the page. -/
def points (e0 e1 e2 : Element) : List Point :=
  [ { position := { x := -0.4437192976474762, y := 1.5396040678024292,
                    z := 0.03709359748744965 },
      element := e0 },
    { position := { x := -3.8038618564605713, y := 2.4747447967529297,
                    z := -3.8307576179504395 },
      element := e1 },
    { position := { x := 3.4721550941467285, y := 6.1099395751953125,
                    z := -4.643520355224609 },
      element := e2 } ]

/-- The body of the loop in the toggle handler (lines 225-231). -/
def togglePoint (val : Bool) (point : Point) : Point :=
  if (!val) = true then
    { point with element := { point.element with
        classList := classListRemove "visible" point.element.classList,
        display := "none" } }
  else
    { point with element := { point.element with
        classList := classListAdd "visible" point.element.classList,
        display := "block" } }

/-- The `onChange` handler of the Points-of-Interest control (lines 222-233). -/
def poiOnChange (val : Bool) (s : State) : State :=
  { s with
    console := s.console ++ ["Toggling POI visibility: " ++ toString val],
    points := s.points.map (togglePoint val) }

/-- A click on the Points-of-Interest control: the panel library stores the new
value in `debugObject.poi` and then calls the handler. -/
def setPoi (val : Bool) (s : State) : State :=
  poiOnChange val { s with poi := val }

/-! ## The per-frame step -/

/-- Line 343: `screenPosition.x * sizes.width * 0.5`. -/
def translateX (x width : Number) : Number :=
  (x.mul width).mul (Number.finite (1 / 2))

/-- Line 344: `-screenPosition.y * sizes.height * 0.5`. -/
def translateY (y height : Number) : Number :=
  (y.neg.mul height).mul (Number.finite (1 / 2))

/-- The state in which the loop over the points runs: after `controls.update()`
and, when a mixer exists, `mixer.update(deltaTime)` (lines 316-320). -/
def beginFrame (three : Three) (deltaTime : ℚ) (s : State) : State :=
  let s1 := { s with camera := three.controlsUpdate s.camera }
  match s1.mixer with
  | some mixer =>
    let r := three.mixerUpdate mixer deltaTime s1.scene
    { s1 with mixer := some r.1, scene := r.2 }
  | none => s1

/-- Line 324-325: the projected copy of the point position. -/
def screenPositionOf (three : Three) (s : State) (point : Point) : Vector3 :=
  three.project point.position.clone s.camera

/-- Lines 327-328: the intersections of the ray through the point. -/
def intersectsOf (three : Three) (s : State) (point : Point) : List Intersection :=
  three.intersectObjects (screenPositionOf three s point) s.camera s.scene

/-- Line 334: the distance from the point to the camera. -/
def pointDistanceOf (three : Three) (s : State) (point : Point) : ℚ :=
  three.distanceTo point.position s.camera.position

/-- Lines 343-345: position the label.  The text of a finite number is a valid
length; `NaNpx` and `Infinitypx` are not, and the assignment of an invalid
declaration leaves the property as it was. -/
def setTransform (s : State) (screenPosition : Vector3) (point : Point) : Point :=
  { point with element := { point.element with
      transform :=
        match translateX screenPosition.x s.sizes.width,
              translateY screenPosition.y s.sizes.height with
        | Number.finite a, Number.finite b => some (a, b)
        | _, _ => point.element.transform } }

/-- The body of the loop over the points (lines 324-345).  Returns the point as the
body leaves it and whether the body ran to its end.  Reading `.distance` of
`intersects[0]` throws when the list is empty; nothing of the point has been
written at that moment. -/
def processPoint (three : Three) (s : State) (point : Point) : Point × Outcome :=
  let screenPosition := screenPositionOf three s point
  let intersects := intersectsOf three s point
  if intersects.length = 0 ∧ s.poi = true then
    (setTransform s screenPosition
      { point with element := { point.element with
          classList := classListAdd "visible" point.element.classList } },
     Outcome.completed)
  else
    match intersects[0]? with
    | none => (point, Outcome.threw "TypeError: intersects[0] is undefined")
    | some first =>
      let intersectionDistance := first.distance
      let pointDistance := pointDistanceOf three s point
      let point1 :=
        if intersectionDistance < pointDistance then
          { point with element := { point.element with
              classList := classListRemove "visible" point.element.classList } }
        else if intersectionDistance > pointDistance ∧ s.poi = true then
          { point with element := { point.element with
              classList := classListAdd "visible" point.element.classList } }
        else point
      (setTransform s screenPosition point1, Outcome.completed)

/-- The loop `for (const point of points)` (line 323): the body runs on the points
in order and stops at the first one that throws. -/
def forPoints (three : Three) (s : State) : List Point → List Point × Outcome
  | [] => ([], Outcome.completed)
  | point :: rest =>
    match processPoint three s point with
    | (point1, Outcome.threw e) => (point1 :: rest, Outcome.threw e)
    | (point1, Outcome.completed) =>
      let r := forPoints three s rest
      (point1 :: r.1, r.2)

/-- Lines 349-352: render, then request the next frame. -/
def renderAndRequest (s : State) : State :=
  { s with renderCalls := s.renderCalls + 1, frameRequests := s.frameRequests + 1 }

/-- The function `tick` (lines 313-353), for one invocation with the given clock
delta.  The state returned is the state when the invocation returned or threw. -/
def tick (three : Three) (deltaTime : ℚ) (s : State) : State × Outcome :=
  let s1 := beginFrame three deltaTime s
  if s1.sceneReady = true then
    match forPoints three s1 s1.points with
    | (points, Outcome.threw e) => ({ s1 with points := points }, Outcome.threw e)
    | (points, Outcome.completed) => (renderAndRequest { s1 with points := points }, Outcome.completed)
  else
    (renderAndRequest s1, Outcome.completed)

/-- The animation loop: `tick` runs once per display frame, and the next frame is
requested only by a `tick` that ran to its end (line 352).  Each frame comes with
the results the library gives in that frame and its clock delta. -/
def frames : List (Three × ℚ) → State → State × Outcome
  | [], s => (s, Outcome.completed)
  | (three, deltaTime) :: rest, s =>
    match tick three deltaTime s with
    | (s1, Outcome.threw e) => (s1, Outcome.threw e)
    | (s1, Outcome.completed) => frames rest s1

/-- A label carries the class `visible`. -/
def isVisible (point : Point) : Prop := "visible" ∈ point.element.classList

instance (point : Point) : Decidable (isVisible point) := by
  unfold isVisible; infer_instance

/-- The callback applied to a list of nodes in order, threading the heap. -/
def visit (callback : Heap → Child → Heap × Child) : Heap → List Child → Heap × List Child
  | h, [] => (h, [])
  | h, c :: cs =>
    let r := callback h c
    let rs := visit callback r.1 cs
    (rs.1, r.2 :: rs.2)

/-- Heap `h1` has every object of `h0`, unchanged, and possibly more. -/
def Extends (h0 h1 : Heap) : Prop :=
  h0.next ≤ h1.next ∧ ∀ r, r < h0.next → h1.mem r = h0.mem r

/-- The point is not occluded, in the words of the specification: the
intersection list is empty, or its first (nearest) distance is not less than the
distance from the point to the camera. -/
def NotOccluded (three : Three) (s : State) (point : Point) : Prop :=
  intersectsOf three s point = [] ∨
  ∃ first rest, intersectsOf three s point = first :: rest ∧
    ¬ first.distance < pointDistanceOf three s point

/-- The loop reaches the point at index `i`: on every earlier point the body ran
to its end, that is, no earlier point has an empty intersection list while points
of interest are disabled. -/
def Reaches (three : Three) (s : State) (i : Nat) : Prop :=
  ∀ j q, j < i → s.points[j]? = some q →
    (s.poi = true ∨ intersectsOf three s q ≠ [])

/-- The invariant of the toggle: while points of interest are disabled no label
carries the class `visible`. -/
def HiddenWhenDisabled (s : State) : Prop :=
  s.poi = false → ∀ p ∈ s.points, ¬ isVisible p

/-- The states the script goes through.  It starts with points of interest
enabled (line 219); then the model loads, the control is switched, frames are
drawn, and the other handlers (resize, camera sliders, the ready timer) run, which
touch neither the flag nor the labels. -/
inductive Reachable : State → Prop
  | start (s : State) (h : s.poi = true) : Reachable s
  | load (gltf : GLTF) (s : State) : Reachable s → Reachable (onLoad gltf s)
  | toggle (val : Bool) (s : State) : Reachable s → Reachable (setPoi val s)
  | frame (three : Three) (deltaTime : ℚ) (s : State) :
      Reachable s → Reachable (tick three deltaTime s).1
  | other (s s1 : State) (hpoi : s1.poi = s.poi) (hpoints : s1.points = s.points) :
      Reachable s → Reachable s1

/-! ## Concrete inputs -/

/-- A label that is hidden. -/
def hiddenLabel : Element := { classList := ["point"], display := "", transform := none }

/-- A label that is shown. -/
def visibleLabel : Element :=
  { classList := ["point", "visible"], display := "", transform := none }

/-- Library results for one frame: the controls and the mixer change nothing, a
point projects to `screen p`, the ray through screen coordinates `v` gives
`hits v`, and every distance is `distance`. -/
def frameResults (screen : Vector3 → Vector3) (hits : Vector3 → List Intersection)
    (distance : ℚ) : Three :=
  { controlsUpdate := fun c => c,
    mixerUpdate := fun m _ o => (m, o),
    project := fun v _ => screen v,
    intersectObjects := fun v _ _ => hits v,
    distanceTo := fun _ _ => distance }

/-- A frame in which no ray hits anything. -/
def noHitThree : Three := frameResults (fun v => v) (fun _ => []) 5

/-- A frame in which every ray hits an object exactly at the distance of the point. -/
def equalDistanceThree : Three := frameResults (fun v => v) (fun _ => [{ distance := 5 }]) 5

/-- A frame in which every ray hits an object in front of the point. -/
def occludedThree : Three :=
  frameResults (fun v => v) (fun _ => [{ distance := 1 }, { distance := 7 }]) 5

/-- A frame in which the ray hits nothing for screen coordinates with `x = 1` and
hits an object in front of the point otherwise. -/
def mixedThree : Three :=
  frameResults (fun v => v)
    (fun v => if v.x = 1 then [] else [{ distance := 1 }]) 5

/-- A frame in which every point projects to the top right corner of the screen. -/
def cornerThree : Three :=
  frameResults (fun _ => { x := 1, y := 1, z := 0 }) (fun _ => [{ distance := 7 }]) 5

/-- A frame in which the ray of the first point (screen `x = 0`) hits nothing and
every other ray hits an object in front of the point. -/
def firstFreeThree : Three :=
  frameResults (fun v => v)
    (fun v => if v.x = 0 then [] else [{ distance := 1 }]) 5

/-- A frame in which the first point (`x = 0`) projects to height
0.9000000000000001 and every other point to the next double,
0.9000000000000002; no point is occluded. -/
def neighbourThree : Three :=
  frameResults
    (fun v =>
      if v.x = 0 then
        { x := 0, y := Number.finite (4053239664633447 / 4503599627370496), z := 0 }
      else
        { x := 0, y := Number.finite (8106479329266895 / 9007199254740992), z := 0 })
    (fun _ => [{ distance := 7 }]) 5

/-- A frame in which the projection of every point is `NaN`, as for a camera
whose aspect ratio is not a number. -/
def nanThree : Three :=
  frameResults (fun _ => { x := Number.nan, y := Number.nan, z := Number.nan })
    (fun _ => [{ distance := 7 }]) 5

/-- A hidden label that has been placed at (10, 20) by an earlier frame. -/
def placedLabel : Element :=
  { classList := ["point"], display := "", transform := some (10, 20) }

/-- The script state once the scene is ready, with the camera at its initial
position (lines 268-270), given the flag and the three labels. -/
def readyState (poi : Bool) (e0 e1 e2 : Element) : State :=
  { sceneReady := true, poi := poi, mixer := none, scene := [],
    camera := { position := { x := 16, y := 12, z := 16 },
                aspect := Number.ofRat (800 / 600) },
    sizes := { width := 800, height := 600 },
    points := points e0 e1 e2, materials := initialMaterials,
    console := [], renderCalls := 0, frameRequests := 0 }

/-- A ready state with two points on the x axis. -/
def twoPointState (poi : Bool) (e0 e1 : Element) : State :=
  { readyState poi e0 e1 e1 with
    points := [ { position := { x := 0, y := 0, z := 0 }, element := e0 },
                { position := { x := 1, y := 0, z := 0 }, element := e1 } ] }

/-- A small model: a lamp, a glass pane with a glass child, a globe and a group. -/
def sampleScene : Object3D :=
  Object3D.mk "Scene" false none
    [ Object3D.mk "Lamp" true (some 7) [],
      Object3D.mk "Window Glass" true (some 8) [Object3D.mk "Glass.001" true (some 8) []],
      Object3D.mk "Globe" true (some 9) [],
      Object3D.mk "Desk" true (some 9) [] ]

/-- The heap when the model arrives: the shared materials and three of the model. -/
def loadedHeap : Heap :=
  let h1 := (initialMaterials.alloc (MeshBasicMaterial none none)).1
  let h2 := (h1.alloc (MeshBasicMaterial none none)).1
  let h3 := (h2.alloc (MeshBasicMaterial none none)).1
  let h4 := (h3.alloc (MeshBasicMaterial none (some 1))).1
  let h5 := (h4.alloc (MeshBasicMaterial none (some 2))).1
  (h5.alloc (MeshBasicMaterial none (some 3))).1

/-- The script state when the model arrives: scene not ready, no mixer yet. -/
def loadState : State :=
  { sceneReady := false, poi := true, mixer := none, scene := [],
    camera := { position := { x := 16, y := 12, z := 16 },
                aspect := Number.ofRat (800 / 600) },
    sizes := { width := 800, height := 600 },
    points := points hiddenLabel hiddenLabel hiddenLabel, materials := loadedHeap,
    console := [], renderCalls := 0, frameRequests := 0 }

/-- Two clips. -/
def sampleClips : List AnimationClip :=
  [{ name := "Clock", duration := 2 }, { name := "Fan", duration := 1 }]

/-! ## Lemmas on rounding -/

theorem floor_le_roundHalfEven (r : ℚ) : ⌊r⌋ ≤ roundHalfEven r := by
  unfold roundHalfEven
  split
  · exact le_refl _
  · split
    · omega
    · split <;> omega

theorem roundHalfEven_le_floor_add_one (r : ℚ) : roundHalfEven r ≤ ⌊r⌋ + 1 := by
  unfold roundHalfEven
  split
  · omega
  · split
    · omega
    · split <;> omega

theorem roundHalfEven_eq_floor_of_lt (r : ℚ) (h : r - ⌊r⌋ < 1 / 2) :
    roundHalfEven r = ⌊r⌋ := by
  unfold roundHalfEven
  rw [if_pos h]

theorem roundHalfEven_intCast (n : ℤ) : roundHalfEven (n : ℚ) = n := by
  rw [roundHalfEven_eq_floor_of_lt]
  · exact Int.floor_intCast n
  · rw [Int.floor_intCast, sub_self]; norm_num

theorem roundHalfEven_mono {r s : ℚ} (h : r ≤ s) : roundHalfEven r ≤ roundHalfEven s := by
  have hfl : ⌊r⌋ ≤ ⌊s⌋ := Int.floor_mono h
  rcases lt_or_eq_of_le hfl with hlt | heq
  · calc roundHalfEven r ≤ ⌊r⌋ + 1 := roundHalfEven_le_floor_add_one r
      _ ≤ ⌊s⌋ := hlt
      _ ≤ roundHalfEven s := floor_le_roundHalfEven s
  · have hd : r - ⌊r⌋ ≤ s - ⌊s⌋ := by rw [heq]; linarith
    unfold roundHalfEven
    rw [heq]
    by_cases h1 : r - (⌊s⌋ : ℚ) < 1 / 2
    · rw [heq] at hd
      rw [if_pos h1]
      split
      · exact le_refl _
      · split
        · omega
        · split <;> omega
    · rw [heq] at hd
      rw [if_neg h1]
      have h2 : ¬ (s - (⌊s⌋ : ℚ) < 1 / 2) := fun hc => h1 (lt_of_le_of_lt hd hc)
      rw [if_neg h2]
      by_cases h3 : 1 / 2 < r - (⌊s⌋ : ℚ)
      · rw [if_pos h3, if_pos (lt_of_lt_of_le h3 hd)]
      · rw [if_neg h3]
        by_cases h4 : 1 / 2 < s - (⌊s⌋ : ℚ)
        · rw [if_pos h4]
          split <;> omega
        · rw [if_neg h4]

theorem le_roundHalfEven {n : ℤ} {r : ℚ} (h : (n : ℚ) ≤ r) : n ≤ roundHalfEven r := by
  have := roundHalfEven_mono h
  rwa [roundHalfEven_intCast] at this

theorem roundHalfEven_le {n : ℤ} {r : ℚ} (h : r ≤ (n : ℚ)) : roundHalfEven r ≤ n := by
  have := roundHalfEven_mono h
  rwa [roundHalfEven_intCast] at this

theorem roundHalfEven_eq_of_near (r : ℚ) (n : ℤ) (h1 : (n : ℚ) - 1 / 2 < r)
    (h2 : r < (n : ℚ) + 1 / 2) : roundHalfEven r = n := by
  rcases le_or_lt (n : ℚ) r with h | h
  · have hf : ⌊r⌋ = n := by
      rw [Int.floor_eq_iff]
      exact ⟨h, by linarith⟩
    rw [roundHalfEven_eq_floor_of_lt r (by rw [hf]; linarith), hf]
  · have hf : ⌊r⌋ = n - 1 := by
      rw [Int.floor_eq_iff]
      push_cast
      exact ⟨by linarith, by linarith⟩
    unfold roundHalfEven
    rw [hf]
    push_cast
    rw [if_neg (by linarith), if_pos (by linarith)]
    omega

theorem log_two_eq (q : ℚ) (e : ℤ) (hq : 0 < q) (h1 : (2 : ℚ) ^ e ≤ q)
    (h2 : q < (2 : ℚ) ^ (e + 1)) : Int.log 2 q = e := by
  have a := (Int.zpow_le_iff_le_log (b := 2) (by norm_num) hq).mp (by simpa using h1)
  have b := (Int.lt_zpow_iff_log_lt (b := 2) (by norm_num) hq).mp (by simpa using h2)
  omega

theorem two_zpow_pos (p : ℤ) : (0 : ℚ) < 2 ^ p := zpow_pos (by norm_num) p

theorem scaled_round_le (q : ℚ) (p N : ℤ) (h : q ≤ (N : ℚ) * 2 ^ p) :
    (roundHalfEven (q / 2 ^ p) : ℚ) * 2 ^ p ≤ (N : ℚ) * 2 ^ p := by
  have h1 : q / 2 ^ p ≤ (N : ℚ) := (div_le_iff₀ (two_zpow_pos p)).mpr h
  have h2 : ((roundHalfEven (q / 2 ^ p) : ℤ) : ℚ) ≤ (N : ℚ) := by
    exact_mod_cast roundHalfEven_le h1
  exact mul_le_mul_of_nonneg_right h2 (le_of_lt (two_zpow_pos p))

theorem le_scaled_round (q : ℚ) (p N : ℤ) (h : (N : ℚ) * 2 ^ p ≤ q) :
    (N : ℚ) * 2 ^ p ≤ (roundHalfEven (q / 2 ^ p) : ℚ) * 2 ^ p := by
  have h1 : (N : ℚ) ≤ q / 2 ^ p := (le_div_iff₀ (two_zpow_pos p)).mpr h
  have h2 : (N : ℚ) ≤ ((roundHalfEven (q / 2 ^ p) : ℤ) : ℚ) := by
    exact_mod_cast le_roundHalfEven h1
  exact mul_le_mul_of_nonneg_right h2 (le_of_lt (two_zpow_pos p))

theorem roundMagnitude_nonneg (q : ℚ) (hq : 0 ≤ q) : 0 ≤ roundMagnitude q := by
  unfold roundMagnitude
  have := le_scaled_round q (ulpExponent q) 0 (by simpa using hq)
  simpa using this

theorem roundMagnitude_zero : roundMagnitude 0 = 0 := by
  unfold roundMagnitude
  rw [zero_div]
  have : roundHalfEven 0 = 0 := by
    have := roundHalfEven_intCast 0
    simpa using this
  rw [this]
  simp

theorem ulpExponent_mono {a b : ℚ} (ha : 0 < a) (hab : a ≤ b) :
    ulpExponent a ≤ ulpExponent b := by
  unfold ulpExponent
  have := Int.log_mono_right (b := 2) ha hab
  omega

theorem two_zpow_split (e p : ℤ) (h : p ≤ e) :
    (2 : ℚ) ^ e = (((2 : ℤ) ^ (e - p).toNat : ℤ) : ℚ) * 2 ^ p := by
  have hk : ((e - p).toNat : ℤ) = e - p := Int.toNat_of_nonneg (by omega)
  have : e = ((e - p).toNat : ℤ) + p := by omega
  conv_lhs => rw [this]
  rw [zpow_add₀ (by norm_num : (2 : ℚ) ≠ 0), zpow_natCast]
  push_cast
  rfl

theorem roundMagnitude_mono {a b : ℚ} (ha : 0 < a) (hab : a ≤ b) :
    roundMagnitude a ≤ roundMagnitude b := by
  have hb : 0 < b := lt_of_lt_of_le ha hab
  have hp := ulpExponent_mono ha hab
  rcases eq_or_lt_of_le hp with heq | hlt
  · unfold roundMagnitude
    rw [heq]
    have h1 : a / 2 ^ ulpExponent b ≤ b / 2 ^ ulpExponent b :=
      div_le_div_of_nonneg_right hab (le_of_lt (two_zpow_pos _))
    have h2 : ((roundHalfEven (a / 2 ^ ulpExponent b) : ℤ) : ℚ)
        ≤ ((roundHalfEven (b / 2 ^ ulpExponent b) : ℤ) : ℚ) := by
      exact_mod_cast roundHalfEven_mono h1
    exact mul_le_mul_of_nonneg_right h2 (le_of_lt (two_zpow_pos _))
  · have hlog : Int.log 2 a + 1 ≤ Int.log 2 b := by
      unfold ulpExponent at hlt
      omega
    have hpa : ulpExponent a ≤ Int.log 2 b := by
      unfold ulpExponent at hlt ⊢
      omega
    have hpb : ulpExponent b ≤ Int.log 2 b := by
      unfold ulpExponent at hlt ⊢
      omega
    have hT1 : (2 : ℚ) ^ Int.log 2 b ≤ b := by
      have := Int.zpow_log_le_self (b := 2) (by norm_num) hb
      simpa using this
    have hT2 : a ≤ (2 : ℚ) ^ Int.log 2 b := by
      have h1 := Int.lt_zpow_succ_log_self (b := 2) (by norm_num) a
      have h2 : (2 : ℚ) ^ (Int.log 2 a + 1) ≤ 2 ^ Int.log 2 b :=
        zpow_le_zpow_right₀ (by norm_num) hlog
      have h3 : a < (2 : ℚ) ^ (Int.log 2 a + 1) := by simpa using h1
      exact le_of_lt (lt_of_lt_of_le h3 h2)
    have ea := two_zpow_split (Int.log 2 b) (ulpExponent a) hpa
    have eb := two_zpow_split (Int.log 2 b) (ulpExponent b) hpb
    calc roundMagnitude a
        ≤ (2 : ℚ) ^ Int.log 2 b := by
          unfold roundMagnitude
          rw [ea] at hT2 ⊢
          exact scaled_round_le a _ _ hT2
      _ ≤ roundMagnitude b := by
          unfold roundMagnitude
          rw [eb] at hT1 ⊢
          exact le_scaled_round b _ _ hT1

theorem roundNearest_mono {a b : ℚ} (hab : a ≤ b) : roundNearest a ≤ roundNearest b := by
  unfold roundNearest
  by_cases ha : a < 0
  · rw [if_pos ha]
    by_cases hb : b < 0
    · rw [if_pos hb]
      exact neg_le_neg (roundMagnitude_mono (by linarith) (by linarith))
    · rw [if_neg hb]
      have h1 := roundMagnitude_nonneg (-a) (by linarith)
      have h2 := roundMagnitude_nonneg b (by linarith)
      linarith
  · have hb : ¬ b < 0 := by linarith
    rw [if_neg ha, if_neg hb]
    rcases eq_or_lt_of_le (not_lt.mp ha) with h0 | h0
    · rw [← h0, roundMagnitude_zero]
      exact roundMagnitude_nonneg b (by linarith)
    · exact roundMagnitude_mono h0 hab

theorem roundNearest_neg (q : ℚ) : roundNearest (-q) = -roundNearest q := by
  unfold roundNearest
  rcases lt_trichotomy q 0 with h | h | h
  · rw [if_neg (by linarith), if_pos h, neg_neg]
  · rw [h]
    simp [roundMagnitude_zero]
  · rw [if_pos (by linarith), if_neg (by linarith), neg_neg]

theorem roundNearest_zero : roundNearest 0 = 0 := by
  unfold roundNearest
  simp [roundMagnitude_zero]

theorem abs_roundNearest_le {q w : ℚ} (hw : roundNearest w = w) (h : |q| ≤ w) :
    |roundNearest q| ≤ w := by
  rw [abs_le] at h ⊢
  constructor
  · have := roundNearest_mono h.1
    rw [roundNearest_neg, hw] at this
    exact this
  · have := roundNearest_mono h.2
    rw [hw] at this
    exact this

theorem roundMagnitude_eq (q : ℚ) (e n : ℤ) (hq : 0 < q) (h1 : (2 : ℚ) ^ e ≤ q)
    (h2 : q < (2 : ℚ) ^ (e + 1))
    (h3 : (n : ℚ) - 1 / 2 < q / 2 ^ (max (e - 52) (-1074)))
    (h4 : q / 2 ^ (max (e - 52) (-1074)) < (n : ℚ) + 1 / 2) :
    roundMagnitude q = (n : ℚ) * 2 ^ (max (e - 52) (-1074)) := by
  unfold roundMagnitude ulpExponent
  rw [log_two_eq q e hq h1 h2, roundHalfEven_eq_of_near _ n h3 h4]

theorem roundNearest_of_nonneg (q : ℚ) (e n : ℤ) (hq : 0 < q) (h1 : (2 : ℚ) ^ e ≤ q)
    (h2 : q < (2 : ℚ) ^ (e + 1))
    (h3 : (n : ℚ) - 1 / 2 < q / 2 ^ (max (e - 52) (-1074)))
    (h4 : q / 2 ^ (max (e - 52) (-1074)) < (n : ℚ) + 1 / 2) :
    roundNearest q = (n : ℚ) * 2 ^ (max (e - 52) (-1074)) := by
  unfold roundNearest
  rw [if_neg (not_lt.mpr (le_of_lt hq)), roundMagnitude_eq q e n hq h1 h2 h3 h4]

theorem ofRat_eq_finite (q v : ℚ) (h : roundNearest q = v) (hb : |v| < 2 ^ 1024) :
    Number.ofRat q = Number.finite v := by
  unfold Number.ofRat
  rw [h, if_neg (not_le.mpr hb)]

/-- A finite result of rounding is the nearest double. -/
theorem eq_roundNearest_of_ofRat (q v : ℚ) (h : Number.ofRat q = Number.finite v) :
    v = roundNearest q := by
  unfold Number.ofRat at h
  split at h
  · cases h
  · exact (Number.finite.inj h).symm

theorem isDouble_iff (q : ℚ) : IsDouble q ↔ roundNearest q = q ∧ |q| < 2 ^ 1024 := by
  constructor
  · intro h
    have h1 := (eq_roundNearest_of_ofRat q q h).symm
    refine ⟨h1, ?_⟩
    unfold IsDouble Number.ofRat at h
    rw [h1] at h
    by_contra hc
    rw [if_pos (not_lt.mp hc)] at h
    cases h
  · intro h
    exact ofRat_eq_finite q q h.1 h.2

theorem isDouble_neg (q : ℚ) (h : IsDouble q) : IsDouble (-q) := by
  rw [isDouble_iff] at h ⊢
  rw [roundNearest_neg, h.1, abs_neg]
  exact ⟨rfl, h.2⟩

theorem isDouble_zero : IsDouble 0 := by
  rw [isDouble_iff, roundNearest_zero]
  exact ⟨rfl, by norm_num⟩

/-- A real result no larger in magnitude than a double rounds to a finite number
no larger in magnitude than that double. -/
theorem ofRat_of_abs_le (q w : ℚ) (hw : IsDouble w) (h : |q| ≤ w) :
    Number.ofRat q = Number.finite (roundNearest q) ∧ |roundNearest q| ≤ w := by
  rw [isDouble_iff] at hw
  have h1 := abs_roundNearest_le hw.1 h
  have h2 : |roundNearest q| < 2 ^ 1024 :=
    lt_of_le_of_lt h1 (lt_of_le_of_lt (le_abs_self w) hw.2)
  exact ⟨ofRat_eq_finite q _ rfl h2, h1⟩

theorem mul_finite (a b : ℚ) :
    (Number.finite a).mul (Number.finite b) = Number.ofRat (a * b) := rfl

/-- A finite product of two finite numbers is the rounded exact product. -/
theorem eq_of_mul_eq_finite (x : Number) (b v : ℚ)
    (h : x.mul (Number.finite b) = Number.finite v) :
    ∃ a, x = Number.finite a ∧ v = roundNearest (a * b) := by
  cases x with
  | nan => cases h
  | infinity sign =>
    by_cases hb : b = 0
    · simp [Number.mul, hb] at h
    · simp [Number.mul, hb] at h
  | finite a => exact ⟨a, rfl, eq_roundNearest_of_ofRat _ _ h⟩

/-! ## Lemmas on the label offsets -/

theorem translateX_finite (x w : ℚ) :
    translateX (Number.finite x) (Number.finite w)
      = (Number.ofRat (x * w)).mul (Number.finite (1 / 2)) := rfl

theorem translateY_finite (y h : ℚ) :
    translateY (Number.finite y) (Number.finite h)
      = (Number.ofRat (-y * h)).mul (Number.finite (1 / 2)) := rfl

/-- Where the products are doubles the offset is the exact `x * width / 2`. -/
theorem translateX_exact (x w : ℚ) (h1 : IsDouble (x * w)) (h2 : IsDouble (x * w / 2)) :
    translateX (Number.finite x) (Number.finite w) = Number.finite (x * w / 2) := by
  rw [translateX_finite, h1, mul_finite]
  have e : x * w * (1 / 2) = x * w / 2 := by ring
  rw [e]
  exact h2

/-- Where the products are doubles the offset is the exact `-y * height / 2`. -/
theorem translateY_exact (y h : ℚ) (h1 : IsDouble (-y * h)) (h2 : IsDouble (-y * h / 2)) :
    translateY (Number.finite y) (Number.finite h) = Number.finite (-y * h / 2) := by
  rw [translateY_finite, h1, mul_finite]
  have e : -y * h * (1 / 2) = -y * h / 2 := by ring
  rw [e]
  exact h2

theorem half_product_bounded (q w : ℚ) (hw : IsDouble w) (hw2 : IsDouble (w / 2))
    (h : |q| ≤ w) :
    ∃ v, (Number.ofRat q).mul (Number.finite (1 / 2)) = Number.finite v ∧ |v| ≤ w / 2 := by
  obtain ⟨e1, b1⟩ := ofRat_of_abs_le q w hw h
  have hh : |roundNearest q * (1 / 2)| ≤ w / 2 := by
    rw [abs_mul]
    have : |(1 / 2 : ℚ)| = 1 / 2 := abs_of_pos (by norm_num)
    rw [this]
    linarith
  obtain ⟨e2, b2⟩ := ofRat_of_abs_le (roundNearest q * (1 / 2)) (w / 2) hw2 hh
  exact ⟨_, by rw [e1, mul_finite, e2], b2⟩

theorem abs_translateX_le (x w : ℚ) (hw0 : 0 ≤ w) (hw : IsDouble w)
    (hw2 : IsDouble (w / 2)) (hl : -1 ≤ x) (hu : x ≤ 1) :
    ∃ v, translateX (Number.finite x) (Number.finite w) = Number.finite v ∧
      |v| ≤ w / 2 := by
  rw [translateX_finite]
  refine half_product_bounded (x * w) w hw hw2 ?_
  rw [abs_mul, abs_of_nonneg hw0]
  have : |x| ≤ 1 := abs_le.mpr ⟨hl, hu⟩
  nlinarith

theorem abs_translateY_le (y h : ℚ) (hh0 : 0 ≤ h) (hh : IsDouble h)
    (hh2 : IsDouble (h / 2)) (hl : -1 ≤ y) (hu : y ≤ 1) :
    ∃ v, translateY (Number.finite y) (Number.finite h) = Number.finite v ∧
      |v| ≤ h / 2 := by
  rw [translateY_finite]
  refine half_product_bounded (-y * h) h hh hh2 ?_
  rw [abs_mul, abs_neg, abs_of_nonneg hh0]
  have : |y| ≤ 1 := abs_le.mpr ⟨hl, hu⟩
  nlinarith

theorem translate_zero (w h : ℚ) :
    translateX (Number.finite 0) (Number.finite w) = Number.finite 0 ∧
    translateY (Number.finite 0) (Number.finite h) = Number.finite 0 := by
  have z : Number.ofRat 0 = Number.finite 0 := isDouble_zero
  constructor
  · rw [translateX_finite, zero_mul, z, mul_finite, zero_mul, z]
  · rw [translateY_finite, neg_zero, zero_mul, z, mul_finite, zero_mul, z]

/-- A finite vertical offset is the product rounded twice. -/
theorem eq_of_translateY_eq_finite (y h v : ℚ)
    (hv : translateY (Number.finite y) (Number.finite h) = Number.finite v) :
    v = roundNearest (roundNearest (-y * h) * (1 / 2)) := by
  rw [translateY_finite] at hv
  obtain ⟨a, ha, hva⟩ := eq_of_mul_eq_finite _ _ _ hv
  rw [eq_roundNearest_of_ofRat _ _ ha] at hva
  exact hva

/-- A larger `y` never gives a larger vertical offset. -/
theorem translateY_antitone (y1 y2 h v1 v2 : ℚ) (hh : 0 ≤ h) (hy : y1 ≤ y2)
    (e1 : translateY (Number.finite y1) (Number.finite h) = Number.finite v1)
    (e2 : translateY (Number.finite y2) (Number.finite h) = Number.finite v2) :
    v2 ≤ v1 := by
  rw [eq_of_translateY_eq_finite y1 h v1 e1, eq_of_translateY_eq_finite y2 h v2 e2]
  apply roundNearest_mono
  have : roundNearest (-y2 * h) ≤ roundNearest (-y1 * h) := by
    apply roundNearest_mono
    nlinarith
  linarith

/-! ## Lemmas on class lists -/

theorem mem_classListAdd (token : String) (l : List String) :
    token ∈ classListAdd token l := by
  unfold classListAdd
  split
  · assumption
  · simp

theorem not_mem_classListRemove (token : String) (l : List String) :
    token ∉ classListRemove token l := by
  unfold classListRemove
  simp

theorem mem_classListAdd_of_mem {t token : String} {l : List String} (h : t ∈ l) :
    t ∈ classListAdd token l := by
  unfold classListAdd
  split
  · exact h
  · exact List.mem_append_left _ h

theorem mem_of_mem_classListRemove {t token : String} {l : List String}
    (h : t ∈ classListRemove token l) : t ∈ l := by
  unfold classListRemove at h
  exact (List.mem_filter.mp h).1

/-! ## Lemmas on the loop body -/

theorem setTransform_classList (s : State) (v : Vector3) (point : Point) :
    (setTransform s v point).element.classList = point.element.classList := rfl

theorem setTransform_display (s : State) (v : Vector3) (point : Point) :
    (setTransform s v point).element.display = point.element.display := rfl

theorem setTransform_position (s : State) (v : Vector3) (point : Point) :
    (setTransform s v point).position = point.position := rfl

theorem setTransform_transform_finite (s : State) (v : Vector3) (point : Point)
    (a b : ℚ) (ha : translateX v.x s.sizes.width = Number.finite a)
    (hb : translateY v.y s.sizes.height = Number.finite b) :
    (setTransform s v point).element.transform = some (a, b) := by
  unfold setTransform
  simp only [ha, hb]

theorem setTransform_transform_invalid (s : State) (v : Vector3) (point : Point)
    (h : (∀ a, translateX v.x s.sizes.width ≠ Number.finite a) ∨
      (∀ b, translateY v.y s.sizes.height ≠ Number.finite b)) :
    (setTransform s v point).element.transform = point.element.transform := by
  unfold setTransform
  simp only
  split
  · rename_i a b ha hb
    rcases h with h | h
    · exact absurd ha (h a)
    · exact absurd hb (h b)
  · rfl

theorem setTransform_transform_congr (s : State) (v : Vector3) (p q : Point)
    (h : p.element.transform = q.element.transform) :
    (setTransform s v p).element.transform = (setTransform s v q).element.transform := by
  unfold setTransform
  simp only [h]

/-- The loop body when the ray hits nothing and points of interest are enabled. -/
theorem processPoint_nil_poi (three : Three) (s : State) (point : Point)
    (hnil : intersectsOf three s point = []) (hpoi : s.poi = true) :
    processPoint three s point =
      (setTransform s (screenPositionOf three s point)
        { point with element := { point.element with
            classList := classListAdd "visible" point.element.classList } },
       Outcome.completed) := by
  unfold processPoint
  simp [hnil, hpoi]

/-- The loop body when the ray hits nothing and points of interest are disabled. -/
theorem processPoint_nil_not_poi (three : Three) (s : State) (point : Point)
    (hnil : intersectsOf three s point = []) (hpoi : s.poi = false) :
    processPoint three s point =
      (point, Outcome.threw "TypeError: intersects[0] is undefined") := by
  unfold processPoint
  simp [hnil, hpoi]

/-- The loop body when the ray hits something. -/
theorem processPoint_cons (three : Three) (s : State) (point : Point)
    (first : Intersection) (rest : List Intersection)
    (hcons : intersectsOf three s point = first :: rest) :
    processPoint three s point =
      (setTransform s (screenPositionOf three s point)
        (if first.distance < pointDistanceOf three s point then
          { point with element := { point.element with
              classList := classListRemove "visible" point.element.classList } }
        else if first.distance > pointDistanceOf three s point ∧ s.poi = true then
          { point with element := { point.element with
              classList := classListAdd "visible" point.element.classList } }
        else point),
       Outcome.completed) := by
  unfold processPoint
  simp [hcons]

/-- The loop body runs to its end unless the list is empty while points of
interest are disabled. -/
theorem processPoint_completed_iff (three : Three) (s : State) (point : Point) :
    (processPoint three s point).2 = Outcome.completed ↔
      (s.poi = true ∨ intersectsOf three s point ≠ []) := by
  cases hi : intersectsOf three s point with
  | nil =>
    cases hp : s.poi with
    | true => simp [processPoint_nil_poi three s point hi hp]
    | false => simp [processPoint_nil_not_poi three s point hi hp]
  | cons first rest => simp [processPoint_cons three s point first rest hi]

theorem processPoint_outcome (three : Three) (s : State) (point : Point) :
    (processPoint three s point).2 = Outcome.completed ∨
    (processPoint three s point) =
      (point, Outcome.threw "TypeError: intersects[0] is undefined") := by
  cases hi : intersectsOf three s point with
  | nil =>
    cases hp : s.poi with
    | true => left; simp [processPoint_nil_poi three s point hi hp]
    | false => right; exact processPoint_nil_not_poi three s point hi hp
  | cons first rest => left; simp [processPoint_cons three s point first rest hi]

theorem processPoint_position (three : Three) (s : State) (point : Point) :
    (processPoint three s point).1.position = point.position := by
  cases hi : intersectsOf three s point with
  | nil =>
    cases hp : s.poi with
    | true => simp [processPoint_nil_poi three s point hi hp, setTransform_position]
    | false => simp [processPoint_nil_not_poi three s point hi hp]
  | cons first rest =>
    rw [processPoint_cons three s point first rest hi]
    simp only [setTransform_position]
    split
    · rfl
    · split <;> rfl

theorem processPoint_display (three : Three) (s : State) (point : Point) :
    (processPoint three s point).1.element.display = point.element.display := by
  cases hi : intersectsOf three s point with
  | nil =>
    cases hp : s.poi with
    | true => simp [processPoint_nil_poi three s point hi hp, setTransform_display]
    | false => simp [processPoint_nil_not_poi three s point hi hp]
  | cons first rest =>
    rw [processPoint_cons three s point first rest hi]
    simp only [setTransform_display]
    split
    · rfl
    · split <;> rfl

/-- With points of interest disabled the loop body never adds the class. -/
theorem processPoint_not_visible_of_not_poi (three : Three) (s : State) (point : Point)
    (hpoi : s.poi = false) (hv : ¬ isVisible point) :
    ¬ isVisible (processPoint three s point).1 := by
  cases hi : intersectsOf three s point with
  | nil => simpa [processPoint_nil_not_poi three s point hi hpoi] using hv
  | cons first rest =>
    rw [processPoint_cons three s point first rest hi]
    unfold isVisible at hv ⊢
    rw [setTransform_classList]
    split
    · exact not_mem_classListRemove _ _
    · simp [hpoi]
      exact hv

/-! ## Lemmas on the loop and on `tick` -/

theorem forPoints_cons_of_completed (three : Three) (s : State) (point : Point)
    (rest : List Point) (h : (processPoint three s point).2 = Outcome.completed) :
    forPoints three s (point :: rest) =
      ((processPoint three s point).1 :: (forPoints three s rest).1,
       (forPoints three s rest).2) := by
  rw [forPoints]
  cases hp : processPoint three s point with
  | mk p1 o =>
    rw [hp] at h
    simp only at h
    subst h
    rfl

theorem forPoints_cons_of_threw (three : Three) (s : State) (point : Point)
    (rest : List Point) (e : String)
    (h : (processPoint three s point).2 = Outcome.threw e) :
    forPoints three s (point :: rest) =
      ((processPoint three s point).1 :: rest, Outcome.threw e) := by
  rw [forPoints]
  cases hp : processPoint three s point with
  | mk p1 o =>
    rw [hp] at h
    simp only at h
    subst h
    rfl

theorem forPoints_cons_cases (three : Three) (s : State) (point : Point)
    (rest : List Point) :
    forPoints three s (point :: rest) =
      ((processPoint three s point).1 :: (forPoints three s rest).1,
       (forPoints three s rest).2) ∨
    forPoints three s (point :: rest) =
      (point :: rest, Outcome.threw "TypeError: intersects[0] is undefined") := by
  rcases processPoint_outcome three s point with h | h
  · exact Or.inl (forPoints_cons_of_completed three s point rest h)
  · right
    have h2 : (processPoint three s point).2
        = Outcome.threw "TypeError: intersects[0] is undefined" := by rw [h]
    rw [forPoints_cons_of_threw three s point rest _ h2, h]

/-- The loop leaves at index `i` what the loop body makes of the point there,
provided the body ran to its end on all earlier points. -/
theorem forPoints_get (three : Three) (s : State) :
    ∀ (ps : List Point) (i : Nat) (point : Point), ps[i]? = some point →
      (∀ j q, j < i → ps[j]? = some q →
        (processPoint three s q).2 = Outcome.completed) →
      (forPoints three s ps).1[i]? = some (processPoint three s point).1
  | [], i, point, hi, _ => by simp at hi
  | p0 :: rest, 0, point, hi, _ => by
    simp at hi
    subst hi
    rcases forPoints_cons_cases three s p0 rest with h | h
    · rw [h]; simp
    · rw [h]
      rcases processPoint_outcome three s p0 with h2 | h2
      · have h3 := forPoints_cons_of_completed three s p0 rest h2
        rw [h3] at h
        have h4 := congrArg Prod.snd h
        have h5 := congrArg Prod.fst h
        simp at h5
        simp [h5.1]
      · rw [h2]; simp
  | p0 :: rest, i + 1, point, hi, hprev => by
    have h0 : (processPoint three s p0).2 = Outcome.completed :=
      hprev 0 p0 (Nat.succ_pos i) (by simp)
    rw [forPoints_cons_of_completed three s p0 rest h0]
    simp only [List.getElem?_cons_succ] at hi ⊢
    exact forPoints_get three s rest i point hi
      (fun j q hj hq => hprev (j + 1) q (Nat.succ_lt_succ hj) (by simpa using hq))

theorem forPoints_map_position (three : Three) (s : State) :
    ∀ ps : List Point,
      (forPoints three s ps).1.map Point.position = ps.map Point.position
  | [] => by simp [forPoints]
  | p0 :: rest => by
    rcases forPoints_cons_cases three s p0 rest with h | h
    · rw [h]
      simp [processPoint_position, forPoints_map_position three s rest]
    · rw [h]

theorem forPoints_map_display (three : Three) (s : State) :
    ∀ ps : List Point,
      (forPoints three s ps).1.map (fun p => p.element.display)
        = ps.map (fun p => p.element.display)
  | [] => by simp [forPoints]
  | p0 :: rest => by
    rcases forPoints_cons_cases three s p0 rest with h | h
    · rw [h]
      simp [processPoint_display, forPoints_map_display three s rest]
    · rw [h]

theorem forPoints_not_visible_of_not_poi (three : Three) (s : State)
    (hpoi : s.poi = false) :
    ∀ ps : List Point, (∀ p ∈ ps, ¬ isVisible p) →
      ∀ p ∈ (forPoints three s ps).1, ¬ isVisible p
  | [], _ => by simp [forPoints]
  | p0 :: rest, hall => by
    rcases forPoints_cons_cases three s p0 rest with h | h
    · rw [h]
      intro p hp
      simp only [List.mem_cons] at hp
      rcases hp with hp | hp
      · rw [hp]
        exact processPoint_not_visible_of_not_poi three s p0 hpoi
          (hall p0 (List.mem_cons_self _ _))
      · exact forPoints_not_visible_of_not_poi three s hpoi rest
          (fun q hq => hall q (List.mem_cons_of_mem _ hq)) p hp
    · rw [h]
      exact hall

theorem beginFrame_points (three : Three) (deltaTime : ℚ) (s : State) :
    (beginFrame three deltaTime s).points = s.points := by
  unfold beginFrame
  cases s.mixer <;> rfl

theorem beginFrame_poi (three : Three) (deltaTime : ℚ) (s : State) :
    (beginFrame three deltaTime s).poi = s.poi := by
  unfold beginFrame
  cases s.mixer <;> rfl

theorem beginFrame_sceneReady (three : Three) (deltaTime : ℚ) (s : State) :
    (beginFrame three deltaTime s).sceneReady = s.sceneReady := by
  unfold beginFrame
  cases s.mixer <;> rfl

theorem beginFrame_sizes (three : Three) (deltaTime : ℚ) (s : State) :
    (beginFrame three deltaTime s).sizes = s.sizes := by
  unfold beginFrame
  cases s.mixer <;> rfl

theorem beginFrame_renderCalls (three : Three) (deltaTime : ℚ) (s : State) :
    (beginFrame three deltaTime s).renderCalls = s.renderCalls := by
  unfold beginFrame
  cases s.mixer <;> rfl

theorem beginFrame_frameRequests (three : Three) (deltaTime : ℚ) (s : State) :
    (beginFrame three deltaTime s).frameRequests = s.frameRequests := by
  unfold beginFrame
  cases s.mixer <;> rfl

theorem tick_of_not_ready (three : Three) (deltaTime : ℚ) (s : State)
    (hready : s.sceneReady = false) :
    tick three deltaTime s =
      (renderAndRequest (beginFrame three deltaTime s), Outcome.completed) := by
  unfold tick
  simp [beginFrame_sceneReady, hready]

theorem tick_of_ready_completed (three : Three) (deltaTime : ℚ) (s : State)
    (hready : s.sceneReady = true)
    (hc : (forPoints three (beginFrame three deltaTime s) s.points).2
      = Outcome.completed) :
    tick three deltaTime s =
      (renderAndRequest { beginFrame three deltaTime s with
          points := (forPoints three (beginFrame three deltaTime s) s.points).1 },
       Outcome.completed) := by
  unfold tick
  simp only [beginFrame_sceneReady, hready, if_true, beginFrame_points]
  cases h : forPoints three (beginFrame three deltaTime s) s.points with
  | mk ps o =>
    rw [h] at hc
    simp only at hc
    subst hc
    rfl

theorem tick_of_ready_threw (three : Three) (deltaTime : ℚ) (s : State)
    (e : String) (hready : s.sceneReady = true)
    (hc : (forPoints three (beginFrame three deltaTime s) s.points).2
      = Outcome.threw e) :
    tick three deltaTime s =
      ({ beginFrame three deltaTime s with
          points := (forPoints three (beginFrame three deltaTime s) s.points).1 },
       Outcome.threw e) := by
  unfold tick
  simp only [beginFrame_sceneReady, hready, if_true, beginFrame_points]
  cases h : forPoints three (beginFrame three deltaTime s) s.points with
  | mk ps o =>
    rw [h] at hc
    simp only at hc
    subst hc
    rfl

/-- The points after `tick` with the scene ready are those the loop leaves. -/
theorem tick_points_of_ready (three : Three) (deltaTime : ℚ) (s : State)
    (hready : s.sceneReady = true) :
    (tick three deltaTime s).1.points =
      (forPoints three (beginFrame three deltaTime s) s.points).1 := by
  cases hc : (forPoints three (beginFrame three deltaTime s) s.points).2 with
  | completed => rw [tick_of_ready_completed three deltaTime s hready hc]; rfl
  | threw e => rw [tick_of_ready_threw three deltaTime s e hready hc]

/-- The points after `tick` while the scene is not ready are untouched. -/
theorem tick_points_of_not_ready (three : Three) (deltaTime : ℚ) (s : State)
    (hready : s.sceneReady = false) :
    (tick three deltaTime s).1.points = s.points := by
  rw [tick_of_not_ready three deltaTime s hready]
  exact beginFrame_points three deltaTime s

theorem tick_poi (three : Three) (deltaTime : ℚ) (s : State) :
    (tick three deltaTime s).1.poi = s.poi := by
  cases hready : s.sceneReady with
  | false =>
    rw [tick_of_not_ready three deltaTime s hready]
    exact beginFrame_poi three deltaTime s
  | true =>
    cases hc : (forPoints three (beginFrame three deltaTime s) s.points).2 with
    | completed =>
      rw [tick_of_ready_completed three deltaTime s hready hc]
      exact beginFrame_poi three deltaTime s
    | threw e =>
      rw [tick_of_ready_threw three deltaTime s e hready hc]
      exact beginFrame_poi three deltaTime s

theorem tick_points_get (three : Three) (deltaTime : ℚ) (s : State)
    (i : Nat) (point : Point) (hready : s.sceneReady = true)
    (hpoint : s.points[i]? = some point)
    (hreach : Reaches three (beginFrame three deltaTime s) i) :
    (tick three deltaTime s).1.points[i]? =
      some (processPoint three (beginFrame three deltaTime s) point).1 := by
  rw [tick_points_of_ready three deltaTime s hready]
  refine forPoints_get three _ s.points i point hpoint ?_
  intro j q hj hq
  rw [processPoint_completed_iff]
  refine hreach j q hj ?_
  rw [beginFrame_points]
  exact hq

theorem reaches_of_poi (three : Three) (s : State) (i : Nat) (hpoi : s.poi = true) :
    Reaches three s i := fun _ _ _ _ => Or.inl hpoi

theorem tick_map_position (three : Three) (deltaTime : ℚ) (s : State) :
    (tick three deltaTime s).1.points.map Point.position
      = s.points.map Point.position := by
  cases hready : s.sceneReady with
  | false => rw [tick_points_of_not_ready three deltaTime s hready]
  | true =>
    rw [tick_points_of_ready three deltaTime s hready]
    exact forPoints_map_position three _ s.points

theorem tick_hiddenWhenDisabled (three : Three) (deltaTime : ℚ) (s : State)
    (h : HiddenWhenDisabled s) : HiddenWhenDisabled (tick three deltaTime s).1 := by
  intro hpoi
  rw [tick_poi] at hpoi
  cases hready : s.sceneReady with
  | false =>
    rw [tick_points_of_not_ready three deltaTime s hready]
    exact h hpoi
  | true =>
    rw [tick_points_of_ready three deltaTime s hready]
    exact forPoints_not_visible_of_not_poi three _
      (by rw [beginFrame_poi]; exact hpoi) s.points (h hpoi)

/-! ## The visibility update (C1, C2, C9) -/

/-- Counterexample to C1 as stated: scene ready, points of interest disabled, both
labels shown before the step; the ray of the first point hits nothing, the second
point has a non-empty intersection list whose first distance, 1, is less than its
distance to the camera, 5.  `tick` throws at the first point, and after the step
the label of the second point still carries `visible`. -/
theorem tick_abort_leaves_occluded_label_visible :
    (twoPointState false visibleLabel visibleLabel).sceneReady = true ∧
    (twoPointState false visibleLabel visibleLabel).points[1]?
      = some { position := { x := 1, y := 0, z := 0 }, element := visibleLabel } ∧
    intersectsOf firstFreeThree
        (beginFrame firstFreeThree 0 (twoPointState false visibleLabel visibleLabel))
        { position := { x := 1, y := 0, z := 0 }, element := visibleLabel }
      = [{ distance := 1 }] ∧
    (1 : ℚ) < pointDistanceOf firstFreeThree
        (beginFrame firstFreeThree 0 (twoPointState false visibleLabel visibleLabel))
        { position := { x := 1, y := 0, z := 0 }, element := visibleLabel } ∧
    (tick firstFreeThree 0 (twoPointState false visibleLabel visibleLabel)).2
      ≠ Outcome.completed ∧
    (tick firstFreeThree 0 (twoPointState false visibleLabel visibleLabel)).1.points[1]?
      = some { position := { x := 1, y := 0, z := 0 }, element := visibleLabel } ∧
    isVisible { position := { x := 1, y := 0, z := 0 }, element := visibleLabel } := by
  decide

/-- C1, amended: with the scene ready, a point whose intersection list is non-empty
and whose first intersection is strictly nearer than the point itself leaves the
loop body with a label that does not carry `visible`, whatever the flag and the
label before, and the body runs to its end on it; this is the label after `tick`
provided the loop reaches the point, and also in every state in which disabled
points of interest have their labels hidden. -/
theorem tick_occluded_label_not_visible (three : Three) (deltaTime : ℚ) (s : State)
    (i : Nat) (point : Point) (first : Intersection) (rest : List Intersection)
    (hready : s.sceneReady = true)
    (hpoint : s.points[i]? = some point)
    (hhit : intersectsOf three (beginFrame three deltaTime s) point = first :: rest)
    (hlt : first.distance < pointDistanceOf three (beginFrame three deltaTime s) point) :
    (processPoint three (beginFrame three deltaTime s) point).2 = Outcome.completed ∧
    ¬ isVisible (processPoint three (beginFrame three deltaTime s) point).1 ∧
    (Reaches three (beginFrame three deltaTime s) i →
      ∃ p, (tick three deltaTime s).1.points[i]? = some p ∧ ¬ isVisible p) ∧
    (HiddenWhenDisabled s →
      ∃ p, (tick three deltaTime s).1.points[i]? = some p ∧ ¬ isVisible p) := by
  have hnv : ¬ isVisible (processPoint three (beginFrame three deltaTime s) point).1 := by
    rw [processPoint_cons three _ point first rest hhit]
    unfold isVisible
    rw [setTransform_classList, if_pos hlt]
    exact not_mem_classListRemove _ _
  have hreached : Reaches three (beginFrame three deltaTime s) i →
      ∃ p, (tick three deltaTime s).1.points[i]? = some p ∧ ¬ isVisible p :=
    fun hreach => ⟨_, tick_points_get three deltaTime s i point hready hpoint hreach, hnv⟩
  refine ⟨?_, hnv, hreached, ?_⟩
  · rw [processPoint_completed_iff]
    right
    rw [hhit]
    exact List.cons_ne_nil _ _
  · intro hinv
    cases hpoi : s.poi with
    | true =>
      exact hreached (reaches_of_poi three _ i (by rw [beginFrame_poi]; exact hpoi))
    | false =>
      have hlen : i < (tick three deltaTime s).1.points.length := by
        have hl := congrArg List.length (tick_map_position three deltaTime s)
        simp only [List.length_map] at hl
        rw [hl]
        exact (List.getElem?_eq_some_iff.mp hpoint).1
      refine ⟨(tick three deltaTime s).1.points.get ⟨i, hlen⟩,
        List.getElem?_eq_getElem hlen, ?_⟩
      exact tick_hiddenWhenDisabled three deltaTime s hinv
        (by rw [tick_poi]; exact hpoi) _ (List.get_mem _ _ _)

/-- Witness for C1: points of interest disabled, both labels shown before the step,
both points occluded. -/
theorem tick_occluded_label_not_visible_witness :
    ∃ p, (tick occludedThree 0 (twoPointState false visibleLabel visibleLabel)).1.points[1]?
      = some p ∧ ¬ isVisible p :=
  (tick_occluded_label_not_visible occludedThree 0
    (twoPointState false visibleLabel visibleLabel) 1
    { position := { x := 1, y := 0, z := 0 }, element := visibleLabel }
    { distance := 1 } [{ distance := 7 }]
    (by decide) (by decide) (by decide) (by decide)).2.2.1
    (by
      intro j q _ _
      exact Or.inr (List.cons_ne_nil _ _))

/-- Counterexample to C2 as stated: points of interest are enabled, the nearest
intersection of every point lies exactly at the distance of the point, so no point
is occluded, and the labels were hidden before the step; after the step no label
carries `visible`. -/
theorem tick_equal_distance_label_stays_hidden :
    (readyState true hiddenLabel hiddenLabel hiddenLabel).sceneReady = true ∧
    (readyState true hiddenLabel hiddenLabel hiddenLabel).poi = true ∧
    (∀ p ∈ (readyState true hiddenLabel hiddenLabel hiddenLabel).points,
      NotOccluded equalDistanceThree
        (beginFrame equalDistanceThree 0
          (readyState true hiddenLabel hiddenLabel hiddenLabel)) p) ∧
    (tick equalDistanceThree 0
      (readyState true hiddenLabel hiddenLabel hiddenLabel)).2 = Outcome.completed ∧
    (∀ p ∈ (tick equalDistanceThree 0
      (readyState true hiddenLabel hiddenLabel hiddenLabel)).1.points, ¬ isVisible p) := by
  refine ⟨rfl, rfl, ?_, by decide, by decide⟩
  intro p _
  exact Or.inr ⟨{ distance := 5 }, [], rfl, lt_irrefl (5 : ℚ)⟩

/-- C2, amended: with the scene ready and points of interest enabled, every point
is processed; after the step its label carries `visible` if and only if the point is
not occluded, provided the nearest distance differs from the distance of the point;
when the two distances are equal the label keeps the visibility it had. -/
theorem tick_poi_visible_iff_not_occluded (three : Three) (deltaTime : ℚ) (s : State)
    (i : Nat) (point : Point)
    (hready : s.sceneReady = true) (hpoi : s.poi = true)
    (hpoint : s.points[i]? = some point) :
    ∃ p, (tick three deltaTime s).1.points[i]? = some p ∧
      ((∀ first rest,
          intersectsOf three (beginFrame three deltaTime s) point = first :: rest →
          first.distance ≠ pointDistanceOf three (beginFrame three deltaTime s) point) →
        (isVisible p ↔ NotOccluded three (beginFrame three deltaTime s) point)) ∧
      (∀ first rest,
          intersectsOf three (beginFrame three deltaTime s) point = first :: rest →
          first.distance = pointDistanceOf three (beginFrame three deltaTime s) point →
        (isVisible p ↔ isVisible point)) := by
  have hpoi1 : (beginFrame three deltaTime s).poi = true := by
    rw [beginFrame_poi]; exact hpoi
  refine ⟨_, tick_points_get three deltaTime s i point hready hpoint
    (reaches_of_poi three _ i hpoi1), ?_, ?_⟩
  · intro hne
    cases hi : intersectsOf three (beginFrame three deltaTime s) point with
    | nil =>
      rw [processPoint_nil_poi three _ point hi hpoi1]
      unfold isVisible NotOccluded
      rw [setTransform_classList]
      simp [hi, mem_classListAdd]
    | cons first rest =>
      have hne1 := hne first rest hi
      rw [processPoint_cons three _ point first rest hi]
      unfold isVisible NotOccluded
      rw [setTransform_classList]
      by_cases hlt : first.distance < pointDistanceOf three (beginFrame three deltaTime s) point
      · rw [if_pos hlt]
        simp [hi, hlt, not_mem_classListRemove]
      · have hgt : first.distance > pointDistanceOf three (beginFrame three deltaTime s) point :=
          lt_of_le_of_ne (not_lt.mp hlt) (Ne.symm hne1)
        rw [if_neg hlt, if_pos ⟨hgt, hpoi1⟩]
        simp [hi, not_lt.mp hlt, mem_classListAdd]
  · intro first rest hi heq
    rw [processPoint_cons three _ point first rest hi]
    unfold isVisible
    rw [setTransform_classList]
    have hlt : ¬ first.distance < pointDistanceOf three (beginFrame three deltaTime s) point := by
      rw [heq]; exact lt_irrefl _
    have hgt : ¬ first.distance > pointDistanceOf three (beginFrame three deltaTime s) point := by
      rw [heq]; exact lt_irrefl _
    rw [if_neg hlt, if_neg (fun h => hgt h.1)]

/-- Witness for C2, amended: points of interest enabled, the second label hidden
before the step and its ray free. -/
theorem tick_poi_visible_iff_not_occluded_witness :
    ∃ p, (tick mixedThree 0 (twoPointState true visibleLabel hiddenLabel)).1.points[1]?
      = some p ∧ isVisible p := by
  obtain ⟨p, hp, hiff, _⟩ := tick_poi_visible_iff_not_occluded mixedThree 0
    (twoPointState true visibleLabel hiddenLabel) 1
    { position := { x := 1, y := 0, z := 0 }, element := hiddenLabel }
    (by decide) (by decide) (by decide)
  refine ⟨p, hp, (hiff ?_).mpr (Or.inl (by decide))⟩
  intro first rest h
  exact absurd h (List.noConfusion)

/-- C9 (code defect): with points of interest disabled and an empty intersection
list, the loop body reads `intersects[0]`, which is missing, and throws. -/
theorem processPoint_reads_missing_intersection :
    intersectsOf noHitThree (readyState false hiddenLabel hiddenLabel hiddenLabel)
      { position := { x := 0, y := 0, z := 0 }, element := hiddenLabel } = [] ∧
    (intersectsOf noHitThree (readyState false hiddenLabel hiddenLabel hiddenLabel)
      { position := { x := 0, y := 0, z := 0 }, element := hiddenLabel })[0]? = none ∧
    processPoint noHitThree (readyState false hiddenLabel hiddenLabel hiddenLabel)
      { position := { x := 0, y := 0, z := 0 }, element := hiddenLabel } =
      ({ position := { x := 0, y := 0, z := 0 }, element := hiddenLabel },
       Outcome.threw "TypeError: intersects[0] is undefined") := by
  decide

/-! ## Rendering (C3) -/

/-- An invocation of `tick` that runs to its end renders once and requests one
frame. -/
theorem tick_completed_renders_once (three : Three) (deltaTime : ℚ) (s : State)
    (hc : (tick three deltaTime s).2 = Outcome.completed) :
    (tick three deltaTime s).1.renderCalls = s.renderCalls + 1 ∧
    (tick three deltaTime s).1.frameRequests = s.frameRequests + 1 := by
  cases hready : s.sceneReady with
  | false =>
    rw [tick_of_not_ready three deltaTime s hready]
    simp [renderAndRequest, beginFrame_renderCalls, beginFrame_frameRequests]
  | true =>
    cases hf : (forPoints three (beginFrame three deltaTime s) s.points).2 with
    | completed =>
      rw [tick_of_ready_completed three deltaTime s hready hf]
      simp [renderAndRequest, beginFrame_renderCalls, beginFrame_frameRequests]
    | threw e =>
      rw [tick_of_ready_threw three deltaTime s e hready hf] at hc
      exact absurd hc (by simp)

/-- An invocation of `tick` that throws neither renders nor requests a frame. -/
theorem tick_threw_renders_nothing (three : Three) (deltaTime : ℚ) (s : State)
    (e : String) (hc : (tick three deltaTime s).2 = Outcome.threw e) :
    (tick three deltaTime s).1.renderCalls = s.renderCalls ∧
    (tick three deltaTime s).1.frameRequests = s.frameRequests := by
  cases hready : s.sceneReady with
  | false =>
    rw [tick_of_not_ready three deltaTime s hready] at hc
    exact absurd hc (by simp)
  | true =>
    cases hf : (forPoints three (beginFrame three deltaTime s) s.points).2 with
    | completed =>
      rw [tick_of_ready_completed three deltaTime s hready hf] at hc
      exact absurd hc (by simp)
    | threw e1 =>
      rw [tick_of_ready_threw three deltaTime s e1 hready hf]
      simp [beginFrame_renderCalls, beginFrame_frameRequests]

/-- The loop runs to its end when points of interest are enabled. -/
theorem forPoints_completed_of_poi (three : Three) (s : State) (hpoi : s.poi = true) :
    ∀ ps : List Point, (forPoints three s ps).2 = Outcome.completed
  | [] => rfl
  | p0 :: rest => by
    rw [forPoints_cons_of_completed three s p0 rest
      ((processPoint_completed_iff three s p0).mpr (Or.inl hpoi))]
    exact forPoints_completed_of_poi three s hpoi rest

/-- With the scene not ready, or with points of interest enabled, `tick` runs to
its end. -/
theorem tick_completed_of_not_ready_or_poi (three : Three) (deltaTime : ℚ) (s : State)
    (h : s.sceneReady = false ∨ s.poi = true) :
    (tick three deltaTime s).2 = Outcome.completed := by
  cases hready : s.sceneReady with
  | false => rw [tick_of_not_ready three deltaTime s hready]
  | true =>
    have hpoi : (beginFrame three deltaTime s).poi = true := by
      rw [beginFrame_poi]
      rcases h with h | h
      · rw [hready] at h; cases h
      · exact h
    rw [tick_of_ready_completed three deltaTime s hready
      (forPoints_completed_of_poi three _ hpoi s.points)]

/-- C3 (code defect): scene ready, points of interest disabled, and the rays
through the points hit nothing: `tick` throws at the first point, the scene is not
rendered and no next frame is requested. -/
theorem tick_throws_without_render :
    (tick noHitThree 0 (readyState false hiddenLabel hiddenLabel hiddenLabel)).2
      = Outcome.threw "TypeError: intersects[0] is undefined" ∧
    (tick noHitThree 0 (readyState false hiddenLabel hiddenLabel hiddenLabel)).1.renderCalls
      = (readyState false hiddenLabel hiddenLabel hiddenLabel).renderCalls ∧
    (tick noHitThree 0 (readyState false hiddenLabel hiddenLabel hiddenLabel)).1.frameRequests
      = (readyState false hiddenLabel hiddenLabel hiddenLabel).frameRequests := by
  decide

/-! ## Label placement (C8) -/

theorem roundNearest_of_neg (q : ℚ) (e n : ℤ) (hq : q < 0) (h1 : (2 : ℚ) ^ e ≤ -q)
    (h2 : -q < (2 : ℚ) ^ (e + 1))
    (h3 : (n : ℚ) - 1 / 2 < -q / 2 ^ (max (e - 52) (-1074)))
    (h4 : -q / 2 ^ (max (e - 52) (-1074)) < (n : ℚ) + 1 / 2) :
    roundNearest q = -((n : ℚ) * 2 ^ (max (e - 52) (-1074))) := by
  unfold roundNearest
  rw [if_pos hq, roundMagnitude_eq (-q) e n (by linarith) h1 h2 h3 h4]

/-- A positive rational with at most 53 significant bits, below `2 ^ 1024`, is a
double. -/
theorem isDouble_of_mantissa (q : ℚ) (e n : ℤ) (hq : 0 < q) (h1 : (2 : ℚ) ^ e ≤ q)
    (h2 : q < (2 : ℚ) ^ (e + 1)) (h : q = (n : ℚ) * 2 ^ (max (e - 52) (-1074)))
    (hb : |q| < 2 ^ 1024) : IsDouble q := by
  rw [isDouble_iff]
  refine ⟨?_, hb⟩
  have hd : q / 2 ^ (max (e - 52) (-1074)) = (n : ℚ) := by
    rw [div_eq_iff (ne_of_gt (two_zpow_pos _))]
    exact h
  rw [roundNearest_of_nonneg q e n hq h1 h2 (by rw [hd]; linarith) (by rw [hd]; linarith)]
  exact h.symm

theorem translateY_of_round (y h u v : ℚ) (h1 : roundNearest (-y * h) = u)
    (hu : |u| < 2 ^ 1024) (h2 : roundNearest (u * (1 / 2)) = v) (hv : |v| < 2 ^ 1024) :
    translateY (Number.finite y) (Number.finite h) = Number.finite v := by
  rw [translateY_finite, ofRat_eq_finite _ u h1 hu, mul_finite, ofRat_eq_finite _ v h2 hv]

/-- The loop body, where it runs to its end, leaves the transform that the
assignment of line 345 gives to the label the point came with. -/
theorem processPoint_transform (three : Three) (s : State) (point : Point)
    (hdone : (processPoint three s point).2 = Outcome.completed) :
    (processPoint three s point).1.element.transform =
      (setTransform s (screenPositionOf three s point) point).element.transform := by
  cases hi : intersectsOf three s point with
  | nil =>
    cases hp : s.poi with
    | true =>
      rw [processPoint_nil_poi three s point hi hp]
      exact setTransform_transform_congr s _ _ _ rfl
    | false =>
      rw [processPoint_nil_not_poi three s point hi hp] at hdone
      exact absurd hdone (by simp)
  | cons first rest =>
    rw [processPoint_cons three s point first rest hi]
    apply setTransform_transform_congr
    split
    · rfl
    · split <;> rfl

theorem tick_transform (three : Three) (deltaTime : ℚ) (s : State)
    (i : Nat) (point : Point)
    (hready : s.sceneReady = true)
    (hpoint : s.points[i]? = some point)
    (hreach : Reaches three (beginFrame three deltaTime s) i)
    (hdone : (processPoint three (beginFrame three deltaTime s) point).2
      = Outcome.completed) :
    ∃ p, (tick three deltaTime s).1.points[i]? = some p ∧
      p.element.transform =
        (setTransform (beginFrame three deltaTime s)
          (screenPositionOf three (beginFrame three deltaTime s) point)
          point).element.transform :=
  ⟨_, tick_points_get three deltaTime s i point hready hpoint hreach,
    processPoint_transform three _ point hdone⟩

/-- Counterexample to C8 as stated.  Two points project to the neighbouring
doubles 0.9000000000000001 and 0.9000000000000002 in a viewport of height 600:
the second `y` is larger, yet both labels get the same `translateY`,
-270.00000000000006.  And a point whose projection is `NaN` completes its step
with the transform it had, not the one of the formula. -/
theorem tick_translateY_equal_for_larger_y :
    ((4053239664633447 : ℚ) / 4503599627370496 < 8106479329266895 / 9007199254740992) ∧
    (screenPositionOf neighbourThree
        (beginFrame neighbourThree 0 (twoPointState true hiddenLabel hiddenLabel))
        { position := { x := 0, y := 0, z := 0 }, element := hiddenLabel }).y
      = Number.finite (4053239664633447 / 4503599627370496) ∧
    (screenPositionOf neighbourThree
        (beginFrame neighbourThree 0 (twoPointState true hiddenLabel hiddenLabel))
        { position := { x := 1, y := 0, z := 0 }, element := hiddenLabel }).y
      = Number.finite (8106479329266895 / 9007199254740992) ∧
    (∃ p0 p1,
      (tick neighbourThree 0 (twoPointState true hiddenLabel hiddenLabel)).1.points[0]?
        = some p0 ∧
      (tick neighbourThree 0 (twoPointState true hiddenLabel hiddenLabel)).1.points[1]?
        = some p1 ∧
      p0.element.transform = some ((0 : ℚ), -((4749890231992321 : ℚ) / 17592186044416)) ∧
      p1.element.transform = some ((0 : ℚ), -((4749890231992321 : ℚ) / 17592186044416))) ∧
    (screenPositionOf nanThree
        (beginFrame nanThree 0 (twoPointState true placedLabel placedLabel))
        { position := { x := 0, y := 0, z := 0 }, element := placedLabel }).x
      = Number.nan ∧
    (tick nanThree 0 (twoPointState true placedLabel placedLabel)).2
      = Outcome.completed ∧
    (∃ p, (tick nanThree 0 (twoPointState true placedLabel placedLabel)).1.points[0]?
        = some p ∧ p.element.transform = some ((10 : ℚ), (20 : ℚ))) := by
  have hx : translateX (Number.finite 0) (Number.finite 800) = Number.finite 0 :=
    (translate_zero 800 600).1
  have hy0 : translateY (Number.finite (4053239664633447 / 4503599627370496))
      (Number.finite 600) = Number.finite (-(4749890231992321 / 17592186044416)) := by
    refine translateY_of_round _ _ (-(4749890231992321 / 8796093022208)) _ ?_ ?_ ?_ ?_
    · rw [roundNearest_of_neg _ 9 4749890231992321 (by norm_num) (by norm_num)
        (by norm_num) (by norm_num) (by norm_num)]
      norm_num
    · norm_num [abs_of_pos]
    · rw [roundNearest_of_neg _ 8 4749890231992321 (by norm_num) (by norm_num)
        (by norm_num) (by norm_num) (by norm_num)]
      norm_num
    · norm_num [abs_of_pos]
  have hy1 : translateY (Number.finite (8106479329266895 / 9007199254740992))
      (Number.finite 600) = Number.finite (-(4749890231992321 / 17592186044416)) := by
    refine translateY_of_round _ _ (-(4749890231992321 / 8796093022208)) _ ?_ ?_ ?_ ?_
    · rw [roundNearest_of_neg _ 9 4749890231992321 (by norm_num) (by norm_num)
        (by norm_num) (by norm_num) (by norm_num)]
      norm_num
    · norm_num [abs_of_pos]
    · rw [roundNearest_of_neg _ 8 4749890231992321 (by norm_num) (by norm_num)
        (by norm_num) (by norm_num) (by norm_num)]
      norm_num
    · norm_num [abs_of_pos]
  refine ⟨by norm_num, rfl, rfl, ?_, rfl, by decide, ?_⟩
  · obtain ⟨p0, h0, t0⟩ := tick_transform neighbourThree 0
      (twoPointState true hiddenLabel hiddenLabel) 0
      { position := { x := 0, y := 0, z := 0 }, element := hiddenLabel }
      rfl rfl (reaches_of_poi _ _ _ rfl) (by decide)
    obtain ⟨p1, h1, t1⟩ := tick_transform neighbourThree 0
      (twoPointState true hiddenLabel hiddenLabel) 1
      { position := { x := 1, y := 0, z := 0 }, element := hiddenLabel }
      rfl rfl (reaches_of_poi _ _ _ rfl) (by decide)
    refine ⟨p0, p1, h0, h1, ?_, ?_⟩
    · rw [t0]
      exact setTransform_transform_finite _ _ _ _ _ hx hy0
    · rw [t1]
      exact setTransform_transform_finite _ _ _ _ _ hx hy1
  · obtain ⟨p, h0, t0⟩ := tick_transform nanThree 0
      (twoPointState true placedLabel placedLabel) 0
      { position := { x := 0, y := 0, z := 0 }, element := placedLabel }
      rfl rfl (reaches_of_poi _ _ _ rfl) (by decide)
    refine ⟨p, h0, ?_⟩
    rw [t0]
    exact setTransform_transform_invalid _ _ _ (Or.inl (fun a h => Number.noConfusion h))

/-- C8, amended: with the scene ready, every point on which the loop body runs to
its end gets, whatever its class list, the transform with the two offsets
`x * width * 0.5` and `-y * height * 0.5` computed in doubles, provided both are
finite numbers (otherwise the label keeps the transform it had); the offsets are
the exact `x * width / 2` and `-y * height / 2` where these products are doubles;
for coordinates in [-1, 1] and a non-negative viewport size the offsets are finite
and bounded by half the viewport, the centre gives a zero offset, and a larger `y`
never gives a larger `translateY`. -/
theorem tick_label_transform (three : Three) (deltaTime : ℚ) (s : State)
    (i : Nat) (point : Point)
    (hready : s.sceneReady = true)
    (hpoint : s.points[i]? = some point)
    (hreach : Reaches three (beginFrame three deltaTime s) i)
    (hdone : (processPoint three (beginFrame three deltaTime s) point).2
      = Outcome.completed) :
    (∃ p, (tick three deltaTime s).1.points[i]? = some p ∧
      (∀ a b : ℚ,
        translateX (screenPositionOf three (beginFrame three deltaTime s) point).x
          s.sizes.width = Number.finite a →
        translateY (screenPositionOf three (beginFrame three deltaTime s) point).y
          s.sizes.height = Number.finite b →
        p.element.transform = some (a, b)) ∧
      (((∀ a : ℚ,
          translateX (screenPositionOf three (beginFrame three deltaTime s) point).x
            s.sizes.width ≠ Number.finite a) ∨
        (∀ b : ℚ,
          translateY (screenPositionOf three (beginFrame three deltaTime s) point).y
            s.sizes.height ≠ Number.finite b)) →
        p.element.transform = point.element.transform)) ∧
    (∀ x width : ℚ, IsDouble (x * width) → IsDouble (x * width / 2) →
      translateX (Number.finite x) (Number.finite width)
        = Number.finite (x * width / 2)) ∧
    (∀ y height : ℚ, IsDouble (-y * height) → IsDouble (-y * height / 2) →
      translateY (Number.finite y) (Number.finite height)
        = Number.finite (-y * height / 2)) ∧
    (∀ x width : ℚ, 0 ≤ width → IsDouble width → IsDouble (width / 2) →
      -1 ≤ x → x ≤ 1 →
      ∃ v, translateX (Number.finite x) (Number.finite width) = Number.finite v ∧
        |v| ≤ width / 2) ∧
    (∀ y height : ℚ, 0 ≤ height → IsDouble height → IsDouble (height / 2) →
      -1 ≤ y → y ≤ 1 →
      ∃ v, translateY (Number.finite y) (Number.finite height) = Number.finite v ∧
        |v| ≤ height / 2) ∧
    (∀ width height : ℚ,
      translateX (Number.finite 0) (Number.finite width) = Number.finite 0 ∧
      translateY (Number.finite 0) (Number.finite height) = Number.finite 0) ∧
    (∀ y1 y2 height v1 v2 : ℚ, 0 ≤ height → y1 ≤ y2 →
      translateY (Number.finite y1) (Number.finite height) = Number.finite v1 →
      translateY (Number.finite y2) (Number.finite height) = Number.finite v2 →
      v2 ≤ v1) := by
  refine ⟨?_, translateX_exact, translateY_exact, abs_translateX_le, abs_translateY_le,
    translate_zero, translateY_antitone⟩
  obtain ⟨p, hp, ht⟩ := tick_transform three deltaTime s i point hready hpoint hreach hdone
  refine ⟨p, hp, ?_, ?_⟩
  · intro a b ha hb
    rw [ht]
    refine setTransform_transform_finite _ _ _ a b ?_ ?_
    · rw [beginFrame_sizes]; exact ha
    · rw [beginFrame_sizes]; exact hb
  · intro h
    rw [ht]
    refine setTransform_transform_invalid _ _ _ ?_
    rw [beginFrame_sizes]
    exact h

/-- Witness for C8: a point projected to the top right corner of an 800 by 600
viewport is placed at (400, -300). -/
theorem tick_label_transform_witness :
    ∃ p, (tick cornerThree 0 (twoPointState false hiddenLabel visibleLabel)).1.points[1]?
      = some p ∧ p.element.transform = some ((1 : ℚ) * 800 / 2, -(1 : ℚ) * 600 / 2) := by
  have d800 : IsDouble ((1 : ℚ) * 800) :=
    isDouble_of_mantissa _ 9 (800 * 2 ^ 43) (by norm_num) (by norm_num) (by norm_num)
      (by norm_num) (by norm_num [abs_of_pos])
  have d400 : IsDouble ((1 : ℚ) * 800 / 2) :=
    isDouble_of_mantissa _ 8 (400 * 2 ^ 44) (by norm_num) (by norm_num) (by norm_num)
      (by norm_num) (by norm_num [abs_of_pos])
  have d600 : IsDouble (-(1 : ℚ) * 600) := by
    have := isDouble_neg _ (isDouble_of_mantissa ((1 : ℚ) * 600) 9 (600 * 2 ^ 43)
      (by norm_num) (by norm_num) (by norm_num) (by norm_num) (by norm_num [abs_of_pos]))
    simpa using this
  have d300 : IsDouble (-(1 : ℚ) * 600 / 2) := by
    have := isDouble_neg _ (isDouble_of_mantissa ((1 : ℚ) * 600 / 2) 8 (300 * 2 ^ 44)
      (by norm_num) (by norm_num) (by norm_num) (by norm_num) (by norm_num [abs_of_pos]))
    have e : -((1 : ℚ) * 600 / 2) = -(1 : ℚ) * 600 / 2 := by ring
    rwa [e] at this
  obtain ⟨⟨p, hp, hfin, _⟩, hX, hY, _⟩ :=
    tick_label_transform cornerThree 0 (twoPointState false hiddenLabel visibleLabel) 1
      { position := { x := 1, y := 0, z := 0 }, element := visibleLabel }
      (by decide) (by decide)
      (fun _ _ _ _ => Or.inr (List.cons_ne_nil _ _))
      (by decide)
  exact ⟨p, hp, hfin _ _ (hX 1 800 d800 d400) (hY 1 600 d600 d300)⟩

/-! ## The points array (C6) -/

theorem togglePoint_position (val : Bool) (point : Point) :
    (togglePoint val point).position = point.position := by
  unfold togglePoint
  split <;> rfl

theorem poiOnChange_map_position (val : Bool) (s : State) :
    (poiOnChange val s).points.map Point.position = s.points.map Point.position := by
  unfold poiOnChange
  simp [List.map_map, Function.comp_def, togglePoint_position]

/-- A list with the positions of the script array is the script array, up to the
labels. -/
theorem eq_points_of_map_position (ps : List Point) (e0 e1 e2 : Element)
    (h : ps.map Point.position = (points e0 e1 e2).map Point.position) :
    ∃ a0 a1 a2, ps = points a0 a1 a2 := by
  match ps, h with
  | [], h => simp [points] at h
  | [_], h => simp [points] at h
  | [_, _], h => simp [points] at h
  | [q0, q1, q2], h =>
    refine ⟨q0.element, q1.element, q2.element, ?_⟩
    simp only [points, List.map_cons, List.map_nil, List.cons.injEq, and_true] at h
    obtain ⟨h0, h1, h2⟩ := h
    cases q0; cases q1; cases q2
    simp only at h0 h1 h2
    subst h0 h1 h2
    rfl
  | _ :: _ :: _ :: _ :: _, h => simp [points] at h

/-- C6: `tick` and the toggle handler leave the position of every point as it was,
in the same order; in particular the three-entry array of the script stays the
same array of three positions, only the labels change. -/
theorem points_positions_fixed (three : Three) (deltaTime : ℚ) (s : State) (val : Bool) :
    (tick three deltaTime s).1.points.map Point.position
      = s.points.map Point.position ∧
    (tick three deltaTime s).1.points.length = s.points.length ∧
    (poiOnChange val s).points.map Point.position = s.points.map Point.position ∧
    (poiOnChange val s).points.length = s.points.length ∧
    (∀ e0 e1 e2, s.points = points e0 e1 e2 →
      (tick three deltaTime s).1.points.length = 3 ∧
      (∃ a0 a1 a2, (tick three deltaTime s).1.points = points a0 a1 a2) ∧
      (∃ b0 b1 b2, (poiOnChange val s).points = points b0 b1 b2)) := by
  have ht := tick_map_position three deltaTime s
  have hp := poiOnChange_map_position val s
  have htl : (tick three deltaTime s).1.points.length = s.points.length := by
    have := congrArg List.length ht
    simpa using this
  refine ⟨ht, htl, hp, ?_, ?_⟩
  · have := congrArg List.length hp
    simpa using this
  · intro e0 e1 e2 he
    rw [he] at ht hp htl
    exact ⟨by rw [htl]; rfl, eq_points_of_map_position _ e0 e1 e2 ht,
      eq_points_of_map_position _ e0 e1 e2 hp⟩

/-- Witness for C6: the script array after a frame in which every point is
occluded. -/
theorem points_positions_fixed_witness :
    (tick occludedThree 0 (readyState true visibleLabel visibleLabel visibleLabel)).1.points.length
      = 3 :=
  ((points_positions_fixed occludedThree 0
    (readyState true visibleLabel visibleLabel visibleLabel) false).2.2.2.2
    visibleLabel visibleLabel visibleLabel rfl).1

/-! ## Disabling points of interest (C7) -/

theorem togglePoint_false (point : Point) :
    ¬ isVisible (togglePoint false point) ∧
    (togglePoint false point).element.display = "none" := by
  unfold togglePoint isVisible
  simp [not_mem_classListRemove]

theorem poiOnChange_false_hidden (s : State) :
    ∀ p ∈ (poiOnChange false s).points,
      ¬ isVisible p ∧ p.element.display = "none" := by
  intro p hp
  unfold poiOnChange at hp
  simp only [List.mem_map] at hp
  obtain ⟨q, _, rfl⟩ := hp
  exact togglePoint_false q

theorem tick_display_none (three : Three) (deltaTime : ℚ) (s : State)
    (h : ∀ p ∈ s.points, p.element.display = "none") :
    ∀ p ∈ (tick three deltaTime s).1.points, p.element.display = "none" := by
  have hm : (tick three deltaTime s).1.points.map (fun p => p.element.display)
      = s.points.map (fun p => p.element.display) := by
    cases hready : s.sceneReady with
    | false => rw [tick_points_of_not_ready three deltaTime s hready]
    | true =>
      rw [tick_points_of_ready three deltaTime s hready]
      exact forPoints_map_display three _ s.points
  intro p hp
  have hmem : p.element.display ∈
      (tick three deltaTime s).1.points.map (fun p => p.element.display) :=
    List.mem_map.mpr ⟨p, hp, rfl⟩
  rw [hm] at hmem
  obtain ⟨q, hq, hqp⟩ := List.mem_map.mp hmem
  rw [← hqp]
  exact h q hq

/-- The labels stay hidden along the animation loop while the flag is off. -/
theorem frames_hidden : ∀ (fs : List (Three × ℚ)) (s : State), s.poi = false →
    (∀ p ∈ s.points, ¬ isVisible p ∧ p.element.display = "none") →
    (frames fs s).1.poi = false ∧
    ∀ p ∈ (frames fs s).1.points, ¬ isVisible p ∧ p.element.display = "none"
  | [], s, hpoi, h => ⟨hpoi, h⟩
  | (three, deltaTime) :: rest, s, hpoi, h => by
    have hpoi1 : (tick three deltaTime s).1.poi = false := by
      rw [tick_poi]; exact hpoi
    have hv := tick_hiddenWhenDisabled three deltaTime s (fun _ p hp => (h p hp).1) hpoi1
    have hd := tick_display_none three deltaTime s (fun p hp => (h p hp).2)
    have hall : ∀ p ∈ (tick three deltaTime s).1.points,
        ¬ isVisible p ∧ p.element.display = "none" := fun p hp => ⟨hv p hp, hd p hp⟩
    rw [frames]
    cases ht : tick three deltaTime s with
    | mk s1 o =>
      rw [ht] at hpoi1 hall
      cases o with
      | threw e => exact ⟨hpoi1, hall⟩
      | completed => exact frames_hidden rest s1 hpoi1 hall

/-- C7: after the toggle handler has run with `false` every label lacks `visible`
and has display `none`; every `tick`, whether it runs to its end or throws,
preserves "points of interest disabled implies no label carries `visible`"; hence
after the control is switched off the labels stay hidden over any number of
frames. -/
theorem poi_disabled_labels_stay_hidden (s : State) :
    (∀ p ∈ (poiOnChange false s).points,
      ¬ isVisible p ∧ p.element.display = "none") ∧
    (∀ (three : Three) (deltaTime : ℚ) (s1 : State),
      HiddenWhenDisabled s1 → HiddenWhenDisabled (tick three deltaTime s1).1) ∧
    (∀ fs : List (Three × ℚ), ∀ p ∈ (frames fs (setPoi false s)).1.points,
      ¬ isVisible p ∧ p.element.display = "none") := by
  refine ⟨poiOnChange_false_hidden s, tick_hiddenWhenDisabled, ?_⟩
  intro fs
  refine (frames_hidden fs (setPoi false s) rfl ?_).2
  exact poiOnChange_false_hidden _

/-- Witness for C7: the invariant holds before and after a `tick` that throws at
its second point, with points of interest disabled. -/
theorem poi_disabled_labels_stay_hidden_witness :
    HiddenWhenDisabled (twoPointState false hiddenLabel hiddenLabel) ∧
    (tick mixedThree 0 (twoPointState false hiddenLabel hiddenLabel)).2
      ≠ Outcome.completed ∧
    HiddenWhenDisabled (tick mixedThree 0 (twoPointState false hiddenLabel hiddenLabel)).1 :=
  ⟨fun _ => by decide, by decide,
   (poi_disabled_labels_stay_hidden (twoPointState false hiddenLabel hiddenLabel)).2.1
     mixedThree 0 (twoPointState false hiddenLabel hiddenLabel) (fun _ => by decide)⟩

/-! ## The invariant of the toggle is established by the script -/

theorem setPoi_hiddenWhenDisabled (val : Bool) (s : State) :
    HiddenWhenDisabled (setPoi val s) := by
  intro hpoi p hp
  have hval : val = false := hpoi
  subst hval
  exact (poiOnChange_false_hidden _ p hp).1

theorem onLoad_points_poi (gltf : GLTF) (s : State) :
    (onLoad gltf s).points = s.points ∧ (onLoad gltf s).poi = s.poi := by
  unfold onLoad
  split <;> exact ⟨rfl, rfl⟩

theorem onLoad_hiddenWhenDisabled (gltf : GLTF) (s : State)
    (h : HiddenWhenDisabled s) : HiddenWhenDisabled (onLoad gltf s) := by
  intro hpoi
  rw [(onLoad_points_poi gltf s).2] at hpoi
  rw [(onLoad_points_poi gltf s).1]
  exact h hpoi

/-- In every state the script goes through, disabled points of interest have
their labels hidden. -/
theorem reachable_hiddenWhenDisabled (s : State) (h : Reachable s) :
    HiddenWhenDisabled s := by
  induction h with
  | start s h =>
    intro hpoi
    rw [h] at hpoi
    cases hpoi
  | load gltf s _ ih => exact onLoad_hiddenWhenDisabled gltf s ih
  | toggle val s _ _ => exact setPoi_hiddenWhenDisabled val s
  | frame three deltaTime s _ ih => exact tick_hiddenWhenDisabled three deltaTime s ih
  | other s s1 hpoi hpoints _ ih =>
    intro h1
    rw [hpoints]
    exact ih (by rw [← hpoi]; exact h1)

/-! ## The model-load callback: heap lemmas -/

theorem Extends.refl (h : Heap) : Extends h h := ⟨Nat.le_refl _, fun _ _ => rfl⟩

theorem Extends.trans {h0 h1 h2 : Heap} (a : Extends h0 h1) (b : Extends h1 h2) :
    Extends h0 h2 :=
  ⟨Nat.le_trans a.1 b.1,
   fun r hr => by rw [b.2 r (Nat.lt_of_lt_of_le hr a.1), a.2 r hr]⟩

theorem alloc_extends (h : Heap) (m : Material) : Extends h (h.alloc m).1 := by
  refine ⟨Nat.le_succ _, fun r hr => ?_⟩
  simp [Heap.alloc, Nat.ne_of_lt hr]

theorem alloc_mem (h : Heap) (m : Material) : (h.alloc m).1.mem (h.alloc m).2 = m := by
  simp [Heap.alloc]

theorem makeGlass_extends (h : Heap) (m : MaterialRef) : Extends h (makeGlass h m).1 := by
  refine ⟨Nat.le_succ _, fun r hr => ?_⟩
  simp [makeGlass, Heap.cloneMaterial, Heap.alloc, Heap.write, Nat.ne_of_lt hr]

theorem makeGlass_ref (h : Heap) (m : MaterialRef) : (makeGlass h m).2 = h.next := rfl

theorem makeGlass_next (h : Heap) (m : MaterialRef) :
    (makeGlass h m).1.next = h.next + 1 := rfl

theorem makeGlass_mem (h : Heap) (m : MaterialRef) :
    (makeGlass h m).1.mem (makeGlass h m).2
      = { h.mem m with transparent := true, opacity := 1 / 2 } := by
  simp [makeGlass, Heap.cloneMaterial, Heap.alloc, Heap.write]

theorem assignByName_extends (h : Heap) (name : String) :
    Extends h (assignByName h name).1 := by
  unfold assignByName
  split
  · exact alloc_extends _ _
  · split
    · exact Extends.refl _
    · split
      · exact Extends.refl _
      · split <;> exact Extends.refl _

theorem onChild_extends (h : Heap) (child : Child) : Extends h (onChild h child).1 := by
  unfold onChild
  split
  · split
    · exact (assignByName_extends h child.name).trans (makeGlass_extends _ _)
    · exact assignByName_extends h child.name
  · exact Extends.refl _

theorem visit_extends (callback : Heap → Child → Heap × Child)
    (hcb : ∀ h c, Extends h (callback h c).1) :
    ∀ (l : List Child) (h : Heap), Extends h (visit callback h l).1
  | [], h => Extends.refl h
  | c :: cs, h => (hcb h c).trans (visit_extends callback hcb cs _)

theorem visit_append (callback : Heap → Child → Heap × Child) :
    ∀ (l1 l2 : List Child) (h : Heap),
      visit callback h (l1 ++ l2) =
        ((visit callback (visit callback h l1).1 l2).1,
         (visit callback h l1).2 ++ (visit callback (visit callback h l1).1 l2).2)
  | [], l2, h => by simp [visit]
  | c :: cs, l2, h => by
    simp [visit, visit_append callback cs l2]

mutual
/-- The library traversal applies the callback to the nodes in visiting order. -/
theorem traverse_eq_visit (callback : Heap → Child → Heap × Child) :
    ∀ (h : Heap) (o : Object3D),
      (o.traverse callback h).1 = (visit callback h o.nodes).1 ∧
      (o.traverse callback h).2.nodes = (visit callback h o.nodes).2
  | h, Object3D.mk name isMesh material children => by
    have ih := traverseChildren_eq_visit callback
      (callback h { name := name, isMesh := isMesh, material := material }).1 children
    simp [Object3D.traverse, Object3D.nodes, visit, ih.1, ih.2]
theorem traverseChildren_eq_visit (callback : Heap → Child → Heap × Child) :
    ∀ (h : Heap) (os : List Object3D),
      (traverseChildren callback h os).1 = (visit callback h (nodesOfChildren os)).1 ∧
      nodesOfChildren (traverseChildren callback h os).2
        = (visit callback h (nodesOfChildren os)).2
  | h, [] => by simp [traverseChildren, nodesOfChildren, visit]
  | h, c :: cs => by
    have ih1 := traverse_eq_visit callback h c
    have ih2 := traverseChildren_eq_visit callback (c.traverse callback h).1 cs
    rw [ih1.1] at ih2
    simp [traverseChildren, nodesOfChildren, visit_append, ih1.1, ih1.2, ih2.1, ih2.2]
end

/-- Every visited node is handed to the callback in some heap that extends the
initial one, and what the callback leaves of it survives to the end. -/
theorem visit_get (callback : Heap → Child → Heap × Child)
    (hcb : ∀ h c, Extends h (callback h c).1) :
    ∀ (l : List Child) (h : Heap) (i : Nat) (c : Child), l[i]? = some c →
      ∃ hi, Extends h hi ∧ Extends (callback hi c).1 (visit callback h l).1 ∧
        (visit callback h l).2[i]? = some (callback hi c).2
  | [], _, _, _, hc => by simp at hc
  | c0 :: cs, h, 0, c, hc => by
    simp at hc
    subst hc
    exact ⟨h, Extends.refl h, visit_extends callback hcb cs _, by simp [visit]⟩
  | c0 :: cs, h, i + 1, c, hc => by
    simp only [List.getElem?_cons_succ] at hc
    obtain ⟨hi, h1, h2, h3⟩ := visit_get callback hcb cs (callback h c0).1 i c hc
    exact ⟨hi, (hcb h c0).trans h1, h2, by simpa [visit] using h3⟩

theorem visit_length (callback : Heap → Child → Heap × Child) :
    ∀ (l : List Child) (h : Heap), (visit callback h l).2.length = l.length
  | [], _ => rfl
  | c :: cs, h => by simp [visit, visit_length callback cs]

/-- Every node of the model is handed to `onChild` in a heap that extends the
initial one, and the final heap extends the heap `onChild` returns. -/
theorem traverse_onChild_node (h : Heap) (root : Object3D) (i : Nat) (c : Child)
    (hc : root.nodes[i]? = some c) :
    ∃ hi, Extends h hi ∧ Extends (onChild hi c).1 (root.traverse onChild h).1 ∧
      (root.traverse onChild h).2.nodes[i]? = some (onChild hi c).2 := by
  obtain ⟨hi, h1, h2, h3⟩ := visit_get onChild onChild_extends root.nodes h i c hc
  rw [(traverse_eq_visit onChild h root).1, (traverse_eq_visit onChild h root).2]
  exact ⟨hi, h1, h2, h3⟩

theorem traverse_nodes_length (h : Heap) (root : Object3D) :
    (root.traverse onChild h).2.nodes.length = root.nodes.length := by
  rw [(traverse_eq_visit onChild h root).2, visit_length]

theorem traverse_extends (h : Heap) (root : Object3D) :
    Extends h (root.traverse onChild h).1 := by
  rw [(traverse_eq_visit onChild h root).1]
  exact visit_extends onChild onChild_extends _ _

theorem onLoad_materials (gltf : GLTF) (s : State) :
    (onLoad gltf s).materials = (gltf.scene.traverse onChild s.materials).1 := by
  unfold onLoad
  split <;> rfl

theorem onLoad_scene (gltf : GLTF) (s : State) :
    (onLoad gltf s).scene = s.scene ++ [(gltf.scene.traverse onChild s.materials).2] := by
  unfold onLoad
  split <;> rfl

/-- None of the four special names contains "Glass". -/
theorem glass_not_special (name : String) (h : includes name "Glass" = true) :
    name ≠ "Globe" ∧ name ≠ "Lamp" ∧ name ≠ "Tungsten Piece" ∧ name ≠ "EasterEgg" := by
  refine ⟨?_, ?_, ?_, ?_⟩ <;>
  · intro hn
    rw [hn] at h
    revert h
    decide

theorem assignByName_other (h : Heap) (name : String) (h1 : name ≠ "Globe")
    (h2 : name ≠ "Lamp") (h3 : name ≠ "Tungsten Piece") (h4 : name ≠ "EasterEgg") :
    assignByName h name = (h, material1) := by
  unfold assignByName
  rw [if_neg h1, if_neg h2, if_neg h3, if_neg h4]

theorem onChild_not_mesh (h : Heap) (c : Child) (hm : c.isMesh = false) :
    onChild h c = (h, c) := by
  unfold onChild
  simp [hm]

theorem onChild_glass (h : Heap) (c : Child) (hm : c.isMesh = true)
    (hg : includes c.name "Glass" = true) :
    onChild h c = ((makeGlass h material1).1, { c with material := some h.next }) := by
  obtain ⟨h1, h2, h3, h4⟩ := glass_not_special c.name hg
  unfold onChild
  rw [if_pos hm, if_pos hg, assignByName_other h c.name h1 h2 h3 h4]
  rfl

theorem onChild_plain (h : Heap) (c : Child) (hm : c.isMesh = true)
    (hg : includes c.name "Glass" = false) :
    onChild h c =
      ((assignByName h c.name).1, { c with material := some (assignByName h c.name).2 }) := by
  unfold onChild
  rw [if_pos hm, if_neg (by rw [hg]; exact Bool.false_ne_true)]

/-- The material a mesh ends with, read in the final heap `hf`. -/
theorem onChild_final_material (h hi hf : Heap) (c : Child) (hshared : 4 ≤ h.next)
    (h1 : Extends h hi) (h2 : Extends (onChild hi c).1 hf) (hm : c.isMesh = true) :
    ∃ m, (onChild hi c).2.material = some m ∧
      (includes c.name "Glass" = false →
        (c.name = "Globe" → h.next ≤ m ∧
          hf.mem m = MeshBasicMaterial (some globeTexture) (some 0x888888)) ∧
        (c.name = "Lamp" → m = lampMaterial) ∧
        (c.name = "Tungsten Piece" → m = tungstenMaterial) ∧
        (c.name = "EasterEgg" → m = easterEggMaterial) ∧
        (c.name ≠ "Globe" → c.name ≠ "Lamp" → c.name ≠ "Tungsten Piece" →
          c.name ≠ "EasterEgg" → m = material1)) ∧
      (includes c.name "Glass" = true → h.next ≤ m ∧
        hf.mem m = { h.mem material1 with transparent := true, opacity := 1 / 2 }) := by
  cases hg : includes c.name "Glass" with
  | true =>
    rw [onChild_glass hi c hm hg] at h2 ⊢
    refine ⟨hi.next, rfl, fun hcontra => Bool.noConfusion hcontra, fun _ => ⟨h1.1, ?_⟩⟩
    have hlt : hi.next < (makeGlass hi material1).1.next := by
      rw [makeGlass_next]; exact Nat.lt_succ_self _
    have hmem := makeGlass_mem hi material1
    rw [makeGlass_ref] at hmem
    rw [h2.2 hi.next hlt, hmem, h1.2 material1 (Nat.lt_of_lt_of_le (by decide) hshared)]
  | false =>
    rw [onChild_plain hi c hm hg] at h2 ⊢
    refine ⟨(assignByName hi c.name).2, rfl, fun _ => ?_, fun hcontra => Bool.noConfusion hcontra⟩
    simp only at h2
    refine ⟨fun hn => ?_, fun hn => ?_, fun hn => ?_, fun hn => ?_, fun n1 n2 n3 n4 => ?_⟩
    · have ha : assignByName hi c.name
          = hi.alloc (MeshBasicMaterial (some globeTexture) (some 0x888888)) := by
        unfold assignByName
        rw [if_pos hn]
      rw [ha] at h2 ⊢
      refine ⟨h1.1, ?_⟩
      have hkeep := h2.2 (hi.alloc (MeshBasicMaterial (some globeTexture) (some 0x888888))).2
        (Nat.lt_succ_self _)
      rw [hkeep]
      exact alloc_mem _ _
    · unfold assignByName
      rw [hn]
      rfl
    · unfold assignByName
      rw [hn]
      rfl
    · unfold assignByName
      rw [hn]
      rfl
    · rw [assignByName_other hi c.name n1 n2 n3 n4]

theorem onChild_name (h : Heap) (c : Child) :
    (onChild h c).2.name = c.name ∧ (onChild h c).2.isMesh = c.isMesh := by
  unfold onChild
  split
  · split <;> exact ⟨rfl, rfl⟩
  · exact ⟨rfl, rfl⟩

/-! ## Materials by mesh name (C5) and the shared materials (C10) -/

/-- C5: for every node the model-load traversal visits, a node that is not a mesh
keeps its material, and a mesh ends with a material fixed by its name alone: a new
material with the globe texture and colour 0x888888 for "Globe", the lamp,
tungsten and easter-egg materials for "Lamp", "Tungsten Piece" and "EasterEgg", the
baked material for any other name without "Glass", and for a name with "Glass" a
new copy of the baked material with `transparent` true and `opacity` 1/2; none of
the four special names contains "Glass". -/
theorem onLoad_material_by_name (gltf : GLTF) (s : State) (i : Nat) (c : Child)
    (hshared : 4 ≤ s.materials.next) (hc : gltf.scene.nodes[i]? = some c) :
    (onLoad gltf s).scene = s.scene ++ [(gltf.scene.traverse onChild s.materials).2] ∧
    (∃ c1, (gltf.scene.traverse onChild s.materials).2.nodes[i]? = some c1 ∧
      c1.name = c.name ∧ c1.isMesh = c.isMesh ∧
      (c.isMesh = false → c1.material = c.material) ∧
      (c.isMesh = true → ∃ m, c1.material = some m ∧
        (includes c.name "Glass" = false →
          (c.name = "Globe" → s.materials.next ≤ m ∧
            (onLoad gltf s).materials.mem m
              = MeshBasicMaterial (some globeTexture) (some 0x888888)) ∧
          (c.name = "Lamp" → m = lampMaterial) ∧
          (c.name = "Tungsten Piece" → m = tungstenMaterial) ∧
          (c.name = "EasterEgg" → m = easterEggMaterial) ∧
          (c.name ≠ "Globe" → c.name ≠ "Lamp" → c.name ≠ "Tungsten Piece" →
            c.name ≠ "EasterEgg" → m = material1)) ∧
        (includes c.name "Glass" = true → s.materials.next ≤ m ∧
          (onLoad gltf s).materials.mem m
            = { s.materials.mem material1 with transparent := true, opacity := 1 / 2 }))) ∧
    (∀ (h : Heap) (a b : Child), a.isMesh = true → b.isMesh = true → a.name = b.name →
      (onChild h a).2.material = (onChild h b).2.material) ∧
    (includes "Globe" "Glass" = false ∧ includes "Lamp" "Glass" = false ∧
      includes "Tungsten Piece" "Glass" = false ∧ includes "EasterEgg" "Glass" = false) := by
  refine ⟨onLoad_scene gltf s, ?_, ?_, by decide⟩
  · obtain ⟨hi, h1, h2, h3⟩ := traverse_onChild_node s.materials gltf.scene i c hc
    refine ⟨_, h3, (onChild_name hi c).1, (onChild_name hi c).2, ?_, ?_⟩
    · intro hm
      rw [onChild_not_mesh hi c hm]
    · intro hm
      rw [onLoad_materials]
      exact onChild_final_material s.materials hi _ c hshared h1 h2 hm
  · intro h a b ha hb hab
    unfold onChild
    rw [if_pos ha, if_pos hb, hab]
    split <;> rfl

/-- Witness for C5: the mesh "Window Glass" of the sample model ends with a
transparent material. -/
theorem onLoad_material_by_name_witness :
    ∃ c1 m, (sampleScene.traverse onChild loadedHeap).2.nodes[2]? = some c1 ∧
      c1.material = some m ∧
      ((onLoad { scene := sampleScene, animations := some sampleClips }
          loadState).materials.mem m).transparent = true := by
  obtain ⟨_, ⟨c1, h1, _, _, _, h2⟩, _⟩ :=
    onLoad_material_by_name { scene := sampleScene, animations := some sampleClips }
      loadState 2 { name := "Window Glass", isMesh := true, material := some 8 }
      (by decide) (by decide)
  obtain ⟨m, hm, _, hg⟩ := h2 rfl
  exact ⟨c1, m, h1, hm, by rw [(hg (by decide)).2]⟩

/-- C10: the model-load traversal changes no material that existed before it, so
the baked, lamp, tungsten and easter-egg materials keep their `transparent` and
`opacity` (and every other property), whatever the model; every mesh whose name
does not contain "Glass" ends with a material that is not transparent and has
opacity 1. -/
theorem onLoad_keeps_shared_materials (gltf : GLTF) (s : State)
    (hshared : SharedMaterials s.materials) :
    (∀ r, r < s.materials.next → (onLoad gltf s).materials.mem r = s.materials.mem r) ∧
    (onLoad gltf s).materials.mem material1 = s.materials.mem material1 ∧
    (onLoad gltf s).materials.mem lampMaterial = s.materials.mem lampMaterial ∧
    (onLoad gltf s).materials.mem tungstenMaterial = s.materials.mem tungstenMaterial ∧
    (onLoad gltf s).materials.mem easterEggMaterial = s.materials.mem easterEggMaterial ∧
    SharedMaterials (onLoad gltf s).materials ∧
    (∀ (i : Nat) (c1 : Child),
      (gltf.scene.traverse onChild s.materials).2.nodes[i]? = some c1 →
      c1.isMesh = true → includes c1.name "Glass" = false →
      ∃ m, c1.material = some m ∧
        ((onLoad gltf s).materials.mem m).transparent = false ∧
        ((onLoad gltf s).materials.mem m).opacity = 1) := by
  have hext : Extends s.materials (onLoad gltf s).materials := by
    rw [onLoad_materials]
    exact traverse_extends _ _
  obtain ⟨h4, hl, ht, he, hb⟩ := hshared
  have k1 := hext.2 material1 (Nat.lt_of_lt_of_le (by decide) h4)
  have k2 := hext.2 lampMaterial (Nat.lt_of_lt_of_le (by decide) h4)
  have k3 := hext.2 tungstenMaterial (Nat.lt_of_lt_of_le (by decide) h4)
  have k4 := hext.2 easterEggMaterial (Nat.lt_of_lt_of_le (by decide) h4)
  refine ⟨hext.2, k1, k2, k3, k4, ?_, ?_⟩
  · exact ⟨Nat.le_trans h4 hext.1, by rw [k2, hl], by rw [k3, ht], by rw [k4, he],
      by rw [k1, hb]⟩
  · intro i c1 hc1 hm hg
    have hlen := traverse_nodes_length s.materials gltf.scene
    have hi : i < gltf.scene.nodes.length := by
      rw [← hlen]
      exact (List.getElem?_eq_some_iff.mp hc1).1
    obtain ⟨hi0, e1, e2, e3⟩ := traverse_onChild_node s.materials gltf.scene i
      (gltf.scene.nodes.get ⟨i, hi⟩) (List.getElem?_eq_getElem hi)
    rw [hc1] at e3
    have hc : c1 = (onChild hi0 (gltf.scene.nodes.get ⟨i, hi⟩)).2 := Option.some.inj e3
    have hn := onChild_name hi0 (gltf.scene.nodes.get ⟨i, hi⟩)
    rw [← hc] at hn
    rw [hn.1] at hg
    rw [hn.2] at hm
    rw [← onLoad_materials] at e2
    obtain ⟨m, hmat, hplain, _⟩ := onChild_final_material s.materials hi0
      (onLoad gltf s).materials (gltf.scene.nodes.get ⟨i, hi⟩) h4 e1 e2 hm
    rw [← hc] at hmat
    refine ⟨m, hmat, ?_⟩
    obtain ⟨p1, p2, p3, p4, p5⟩ := hplain hg
    by_cases n1 : (gltf.scene.nodes.get ⟨i, hi⟩).name = "Globe"
    · rw [(p1 n1).2]
      exact ⟨rfl, rfl⟩
    · by_cases n2 : (gltf.scene.nodes.get ⟨i, hi⟩).name = "Lamp"
      · rw [p2 n2, k2, hl]
        exact ⟨rfl, rfl⟩
      · by_cases n3 : (gltf.scene.nodes.get ⟨i, hi⟩).name = "Tungsten Piece"
        · rw [p3 n3, k3, ht]
          exact ⟨rfl, rfl⟩
        · by_cases n4 : (gltf.scene.nodes.get ⟨i, hi⟩).name = "EasterEgg"
          · rw [p4 n4, k4, he]
            exact ⟨rfl, rfl⟩
          · rw [p5 n1 n2 n3 n4, k1, hb]
            exact ⟨rfl, rfl⟩

/-- Witness for C10: after loading the sample model, which has two glass meshes,
the baked material is still opaque. -/
theorem onLoad_keeps_shared_materials_witness :
    ((onLoad { scene := sampleScene, animations := none } loadState).materials.mem
      material1).transparent = false := by
  have h := (onLoad_keeps_shared_materials { scene := sampleScene, animations := none }
    loadState ⟨by decide, rfl, rfl, rfl, rfl⟩).2.1
  rw [h]
  rfl

/-! ## Animations (C4) -/

theorem foldl_playClip (clips : List AnimationClip) :
    ∀ mixer : AnimationMixer,
      (clips.foldl playClip mixer).actions = mixer.actions ++ clips ∧
      (clips.foldl playClip mixer).root = mixer.root := by
  induction clips with
  | nil => intro mixer; simp
  | cons c cs ih =>
    intro mixer
    simp only [List.foldl_cons]
    obtain ⟨h1, h2⟩ := ih (playClip mixer c)
    rw [h1, h2]
    simp [playClip]

/-- C4: the load callback logs "No animations found in the GLTF model." exactly
once when the animation list is absent or empty, and then creates no mixer; when
the list is non-empty it logs nothing, creates a mixer on the model and plays every
clip of the list once, in list order. -/
theorem onLoad_animations (gltf : GLTF) (s : State) :
    ((gltf.animations = none ∨ gltf.animations = some []) →
      (onLoad gltf s).console = s.console ++ ["No animations found in the GLTF model."] ∧
      (onLoad gltf s).mixer = s.mixer) ∧
    (∀ clips, gltf.animations = some clips → clips ≠ [] →
      (onLoad gltf s).console = s.console ∧
      ∃ mixer, (onLoad gltf s).mixer = some mixer ∧ mixer.actions = clips ∧
        mixer.root = (gltf.scene.traverse onChild s.materials).2) := by
  constructor
  · intro h
    have hno : hasAnimations gltf.animations = false := by
      rcases h with h | h <;> rw [h] <;> rfl
    unfold onLoad
    simp [hno]
  · intro clips h hne
    have hyes : hasAnimations gltf.animations = true := by
      rw [h]
      cases clips with
      | nil => exact absurd rfl hne
      | cons c cs => rfl
    unfold onLoad
    simp only [hyes, if_true]
    refine ⟨trivial, _, rfl, ?_, ?_⟩
    · rw [(foldl_playClip _ _).1, h]
      simp
    · rw [(foldl_playClip _ _).2]

/-- Witness for C4: a model with two clips, and a model without an animation list. -/
theorem onLoad_animations_witness :
    ((onLoad { scene := sampleScene, animations := some sampleClips } loadState).console
        = loadState.console ∧
      ∃ mixer, (onLoad { scene := sampleScene, animations := some sampleClips }
          loadState).mixer = some mixer ∧ mixer.actions = sampleClips ∧
        mixer.root = (sampleScene.traverse onChild loadState.materials).2) ∧
    ((onLoad { scene := sampleScene, animations := none } loadState).console
        = loadState.console ++ ["No animations found in the GLTF model."] ∧
      (onLoad { scene := sampleScene, animations := none } loadState).mixer
        = loadState.mixer) :=
  ⟨(onLoad_animations { scene := sampleScene, animations := some sampleClips }
      loadState).2 sampleClips rfl (by decide),
   (onLoad_animations { scene := sampleScene, animations := none } loadState).1
      (Or.inl rfl)⟩

end Isometric
